import Mathlib

/-!
Verification of the Versioned Metadata Diff & Merge Engine of casaos-gen.

This file shallowly embeds the relevant parts of the Python sources
(`casaos_gen/models.py`, `casaos_gen/parser.py`, `casaos_gen/diff_engine.py`,
`casaos_gen/version_manager.py`, `casaos_gen/incremental.py`) as executable
Lean definitions, and proves the specified properties about them.

Embedding conventions:
- Python dicts become association lists `List (String × _)`; dict lookup is
  first-match (`lookupFirst`, Python dicts have unique keys), and the dict
  comprehensions of the form `\x7bp.container: p for p in xs\x7d` become
  `last_by_key` (in a comprehension a later duplicate key overwrites an
  earlier one).
- YAML scalar values that the code stringifies are modelled as `String`
  (integers as `Nat` where the code calls `str` on them); Python falsiness of
  `None` and `""` is modelled explicitly (`or_falsy`).
- The filesystem state of `VersionManager` (work dir contents) becomes the
  `Store` record; filenames `meta.<timestamp>.json` become `Nat` keys ordered
  as the lexicographically sorted, fixed-width timestamps are.  The compose
  file on disk is a `ComposeFile` (raw bytes for hashing plus its parse).
- The SHA-256 fingerprint is an arbitrary function argument `hash`;
  the external LLM fill service (`run_stage1_llm`) is an arbitrary function
  argument `fill`, and runs count how often it is invoked.
- Exceptions become `Except String _` results.
-/

set_option linter.unusedVariables false

namespace CasaosGen

/-! ## models.py -/

/-- `models.PortItem` -/
structure PortItem where
  container : String
  description : String := ""
  user_input : Bool := false
  multilang : Bool := true
deriving DecidableEq, Repr

/-- `models.EnvItem` -/
structure EnvItem where
  container : String
  description : String := ""
  user_input : Bool := false
  multilang : Bool := true
deriving DecidableEq, Repr

/-- `models.VolumeItem` -/
structure VolumeItem where
  container : String
  description : String := ""
  user_input : Bool := false
  multilang : Bool := true
deriving DecidableEq, Repr

/-- `models.ServiceMeta` -/
structure ServiceMeta where
  envs : List EnvItem := []
  ports : List PortItem := []
  volumes : List VolumeItem := []
deriving DecidableEq, Repr

/-- `models.AppMeta` -/
structure AppMeta where
  title : String := ""
  tagline : String := ""
  description : String := ""
  category : String
  author : String
  developer : String := "fromxiaobai"
  main : String
  port_map : String
  architectures : List String := ["amd64", "arm64"]
  icon : String := ""
  thumbnail : String := ""
  screenshot_link : List String := []
  index : String := "/"
  scheme : String := "http"
deriving DecidableEq, Repr

/-- `models.CasaOSMeta`; the services dict is an association list. -/
structure CasaOSMeta where
  app : AppMeta
  services : List (String × ServiceMeta) := []
deriving DecidableEq, Repr

/-! ## Compose data (the YAML value shapes the parser inspects) -/

/-- One entry of a `ports:` list: an int, a string, a long-form mapping
(`published`/`host`, `target`/`containerPort`), or anything else. -/
inductive PortEntry where
  | int (n : Nat)
  | str (s : String)
  | dict (published host target containerPort : Option String)
  | other
deriving DecidableEq, Repr

/-- One entry of a list-form `environment:`: a `KEY=VALUE` string, a
one-or-more-entry mapping, or anything else. -/
inductive EnvEntry where
  | str (s : String)
  | dict (kvs : List (String × String))
  | other
deriving DecidableEq, Repr

/-- The `environment:` value: a mapping or a list. -/
inductive EnvData where
  | dict (kvs : List (String × String))
  | list (entries : List EnvEntry)
deriving DecidableEq, Repr

/-- One entry of a `volumes:` list: a `host:container` string, a long-form
mapping (`target`/`container`), or anything else. -/
inductive VolumeEntry where
  | str (s : String)
  | dict (target container : Option String)
  | other
deriving DecidableEq, Repr

/-- A compose service mapping, restricted to the keys the engine reads.
A missing `ports`/`volumes` key (and the `or []` fallback for a null value)
is the empty list; a missing or null `environment` is `none`. -/
structure Service where
  image : Option String := none
  ports : List PortEntry := []
  environment : Option EnvData := none
  volumes : List VolumeEntry := []
deriving DecidableEq, Repr

/-- A parsed compose document: its `services` mapping. -/
structure Compose where
  services : List (String × Service) := []
deriving DecidableEq, Repr

/-- The value of `services_copy.get(main_service, \x7b\x7d)` when the key is
missing: an empty mapping, whose reads all come back empty. -/
def emptyService : Service := {}

/-! ## Small dict/string helpers used by the embedding -/

/-- Python dict lookup (`d[k]` / `k in d`): first match in the assoc list. -/
def lookupFirst {α : Type} : List (String × α) → String → Option α
  | [], _ => none
  | p :: t, k => if p.1 = k then some p.2 else lookupFirst t k

/-- The dict comprehension `\x7bkey(x): x for x in xs\x7d` followed by a lookup:
the LAST element of `xs` with the given key wins. -/
def last_by_key {α : Type} (key : α → String) : List α → String → Option α
  | [], _ => none
  | x :: t, k =>
    match last_by_key key t k with
    | some r => some r
    | none => if key x = k then some x else none

/-- Python `a or b` on optional strings: `None` and `""` are falsy. -/
def or_falsy (a b : Option String) : Option String :=
  match a with
  | none => b
  | some s => if s = "" then b else some s

/-- Whether `needle` is a leading run of `hay`. -/
def leadMatch : List Char → List Char → Bool
  | [], _ => true
  | _ :: _, [] => false
  | a :: as, b :: bs => a == b && leadMatch as bs

/-- Whether `needle` occurs contiguously inside `hay`. -/
def containsChars (needle : List Char) : List Char → Bool
  | [] => leadMatch needle []
  | b :: t => leadMatch needle (b :: t) || containsChars needle t

/-- Python `needle in hay` on strings. -/
def substr_in (needle hay : String) : Bool :=
  containsChars needle.data hay.data

/-- Python `value.split(sep, 1)[0]`: everything before the first separator.
(The separators the code splits on are single characters.) -/
def before_first (sep : Char) (value : String) : String :=
  ⟨value.data.takeWhile (fun c => !(c == sep))⟩

/-- Python `value.split(sep)` for a single-character separator, on the
character list. -/
def splitChar (sep : Char) : List Char → List (List Char)
  | [] => [[]]
  | c :: t =>
    match splitChar sep t with
    | [] => [[]]
    | h :: r => if c == sep then [] :: h :: r else (c :: h) :: r

/-- Python `value.split(sep)` for a single-character separator. -/
def split_on_char (sep : Char) (s : String) : List String :=
  (splitChar sep s.data).map (fun cs => ⟨cs⟩)

/-- Python `value.strip()` (whitespace trimming) on the character list. -/
def trimChars (cs : List Char) : List Char :=
  ((cs.dropWhile Char.isWhitespace).reverse.dropWhile Char.isWhitespace).reverse

/-- Python `value.strip()`. -/
def str_trim (s : String) : String :=
  ⟨trimChars s.data⟩

/-- Python `value.lower()`. -/
def str_lower (s : String) : String :=
  ⟨s.data.map Char.toLower⟩

/-! ## parser.py -/

def HTTP_FRIENDLY_PORTS : List String := ["80", "443", "8080", "8000", "3000", "5000"]

def PREFERRED_SERVICE_NAMES : List String := ["web", "frontend", "app", "server", "service"]

def CATEGORY_RULES : List (String × String) :=
  [("mysql", "Database"), ("mariadb", "Database"), ("postgres", "Database"),
   ("postgresql", "Database"), ("redis", "Database"), ("mongo", "Database"),
   ("nginx", "Web Server"), ("apache", "Web Server"), ("caddy", "Web Server"),
   ("ollama", "AI"), ("open-webui", "AI"), ("openwebui", "AI"),
   ("nextcloud", "Productivity"), ("immich", "Photos"), ("wordpress", "Web Server")]

/-- `parser.parse_port_entry`: the inner `normalize`. -/
def normalize_port (v : Option String) : Option String :=
  match v with
  | none => none
  | some value =>
    let value := before_first '/' value
    let value := str_trim value
    if value = "" then none else some value

/-- `parser.parse_port_entry`. -/
def parse_port_entry : PortEntry → Option String × Option String
  | .int n =>
    let text := toString n
    (some text, some text)
  | .str s =>
    let cleaned := str_trim s
    let cleaned := before_first '/' cleaned
    let parts := split_on_char ':' cleaned
    -- supports ip:host:container, host:container, container:
    -- with two or more parts the host is the next-to-last part and the
    -- container the last one; with a single part there is no host
    (match parts.reverse with
     | [only] => (normalize_port none, normalize_port (some only))
     | c :: h :: _ => (normalize_port (some h), normalize_port (some c))
     | [] => (none, none))
  | .dict published host target containerPort =>
    (normalize_port (or_falsy published host), normalize_port (or_falsy target containerPort))
  | .other => (none, none)

/-- `parser.collect_port_pairs`. -/
def collect_port_pairs (service : Service) : List (Option String × Option String) :=
  (service.ports.map parse_port_entry).filter (fun hc => hc.1.isSome || hc.2.isSome)

/-- `parser.extract_ports`. -/
def extract_ports (service : Service) : List PortItem :=
  (collect_port_pairs service).filterMap (fun hc =>
    match hc.2 with
    | some c => if c = "" then none else some { container := c }
    | none => none)

/-- `parser.extract_envs`: the iterable of `(key, value)` pairs it builds. -/
def env_iterable (env_data : Option EnvData) : List (String × String) :=
  match env_data with
  | none => []
  | some (.dict kvs) => kvs
  | some (.list entries) =>
    entries.foldr (fun entry acc =>
      match entry with
      | .str s => (str_trim (before_first '=' s), "") :: acc
      | .dict kvs => kvs ++ acc
      | .other => acc) []

/-- `parser.extract_envs`. -/
def extract_envs (service : Service) : List EnvItem :=
  (env_iterable service.environment).filterMap (fun kv =>
    let key := str_trim kv.1
    if key = "" then none else some { container := key })

/-- `parser.parse_volume_entry`. -/
def parse_volume_entry : VolumeEntry → Option String
  | .str s =>
    let cleaned := str_trim s
    if cleaned = "" then none
    else
      (match split_on_char ':' cleaned with
       | _ :: second :: _ => some second
       | [only] => some only
       | [] => none)
  | .dict target container =>
    (match or_falsy target container with
     | some t => if t = "" then none else some (str_trim t)
     | none => none)
  | .other => none

/-- `parser.extract_volumes`. -/
def extract_volumes (service : Service) : List VolumeItem :=
  service.volumes.filterMap (fun entry =>
    match parse_volume_entry entry with
    | some cp => if cp = "" then none else some { container := cp }
    | none => none)

/-- `port = host or container` inside the parser loops. -/
def port_of_pair (hc : Option String × Option String) : Option String :=
  or_falsy hc.1 hc.2

/-- `parser.infer_main_service`: the inner `exposes_http_ports`. -/
def exposes_http_ports (service : Service) : Bool :=
  (collect_port_pairs service).any (fun hc =>
    match port_of_pair hc with
    | some p => HTTP_FRIENDLY_PORTS.contains p
    | none => false)

/-- `parser.infer_main_service`; `none` models the `ValueError` on an empty
services mapping. -/
def infer_main_service (services : List (String × Service)) : Option String :=
  match services with
  | [] => none
  | [(name, _)] => some name
  | _ =>
    match (services.filter (fun p => exposes_http_ports p.2)).map Prod.fst with
    | c :: _ => some c
    | [] =>
      match PREFERRED_SERVICE_NAMES.find? (fun n => (services.map Prod.fst).contains n) with
      | some n => some n
      | none => (services.map Prod.fst).head?

/-- `parser.infer_main_port`. -/
def infer_main_port (service : Service) : String :=
  let pairs := collect_port_pairs service
  match pairs.find? (fun hc =>
      match port_of_pair hc with
      | some p => HTTP_FRIENDLY_PORTS.contains p
      | none => false) with
  | some hc => ((port_of_pair hc).getD "")
  | none =>
    match pairs.find? (fun hc => (port_of_pair hc).isSome) with
    | some hc => ((port_of_pair hc).getD "")
    | none => ""

/-- `parser.infer_category`. -/
def infer_category (services : List (String × Service)) : String :=
  match services.findSome? (fun p =>
      let image := str_lower (p.2.image.getD "")
      CATEGORY_RULES.findSome? (fun kc =>
        if substr_in kc.1 image then some kc.2 else none)) with
  | some c => c
  | none => "Utilities"

/-- `parser.infer_author`. -/
def infer_author (services : List (String × Service)) : String :=
  match services.findSome? (fun p =>
      match p.2.image with
      | none => none
      | some image =>
        if substr_in "/" image then
          (let author := before_first '/' image
           if author = "" then none else some author)
        else none) with
  | some a => a
  | none => "CasaOS User"

/-- The per-service skeleton record built inside `build_casaos_meta`. -/
def build_service_meta (svc : Service) : ServiceMeta :=
  { envs := extract_envs svc, ports := extract_ports svc, volumes := extract_volumes svc }

/-- `parser.build_casaos_meta`; `none` models the `ValueError` on a compose
file without services. -/
def build_casaos_meta (compose : Compose) : Option CasaOSMeta :=
  match compose.services with
  | [] => none
  | svc0 :: rest =>
    let services := svc0 :: rest
    match infer_main_service services with
    | none => none
    | some main_service =>
      let port_map := infer_main_port ((lookupFirst services main_service).getD emptyService)
      let category := infer_category services
      let author := infer_author services
      some
        { app :=
            { category := category, author := author,
              main := main_service, port_map := port_map },
          services := services.map (fun p => (p.1, build_service_meta p.2)) }

/-! ## diff_engine.py -/

/-- `diff_engine.FieldChange`; values are the container identifiers the code
stores there. -/
structure FieldChange where
  path : String
  change_type : String
  old_value : Option String := none
  new_value : Option String := none
deriving DecidableEq, Repr

/-- `diff_engine.ComposeDiff`; the service sets are lists of distinct names. -/
structure ComposeDiff where
  added_services : List String := []
  removed_services : List String := []
  added_fields : List FieldChange := []
  removed_fields : List FieldChange := []
  modified_fields : List FieldChange := []
deriving DecidableEq, Repr

/-- `ComposeDiff.has_changes`. -/
def ComposeDiff.has_changes (d : ComposeDiff) : Bool :=
  !d.added_services.isEmpty || !d.removed_services.isEmpty ||
  !d.added_fields.isEmpty || !d.removed_fields.isEmpty || !d.modified_fields.isEmpty

/-- The `FieldChange` appended for an added port of a service. -/
def port_added_change (svc X : String) : FieldChange :=
  { path := "services." ++ svc ++ ".ports." ++ X, change_type := "added", new_value := some X }

/-- The `FieldChange` appended for a removed port of a service. -/
def port_removed_change (svc X : String) : FieldChange :=
  { path := "services." ++ svc ++ ".ports." ++ X, change_type := "removed", old_value := some X }

/-- The `FieldChange` appended for an added environment variable. -/
def env_added_change (svc X : String) : FieldChange :=
  { path := "services." ++ svc ++ ".envs." ++ X, change_type := "added", new_value := some X }

/-- The `FieldChange` appended for a removed environment variable. -/
def env_removed_change (svc X : String) : FieldChange :=
  { path := "services." ++ svc ++ ".envs." ++ X, change_type := "removed", old_value := some X }

/-- The `FieldChange` appended for an added volume. -/
def vol_added_change (svc X : String) : FieldChange :=
  { path := "services." ++ svc ++ ".volumes." ++ X, change_type := "added", new_value := some X }

/-- The `FieldChange` appended for a removed volume. -/
def vol_removed_change (svc X : String) : FieldChange :=
  { path := "services." ++ svc ++ ".volumes." ++ X, change_type := "removed", old_value := some X }

/-- A for loop that appends a list of results per element. -/
def concat_map {α β : Type} (f : α → List β) : List α → List β
  | [] => []
  | a :: t => f a ++ concat_map f t

/-- `diff_engine._compare_ports`: the `(added, removed)` changes it appends.
The Python sets `\x7bp.container for p in ...\x7d` become deduplicated lists. -/
def _compare_ports (svc : String) (old_svc new_svc : Service) :
    List FieldChange × List FieldChange :=
  let old_ports := ((extract_ports old_svc).map PortItem.container).dedup
  let new_ports := ((extract_ports new_svc).map PortItem.container).dedup
  ((new_ports.filter (fun c => decide (c ∉ old_ports))).map (port_added_change svc),
   (old_ports.filter (fun c => decide (c ∉ new_ports))).map (port_removed_change svc))

/-- `diff_engine._compare_envs`. -/
def _compare_envs (svc : String) (old_svc new_svc : Service) :
    List FieldChange × List FieldChange :=
  let old_envs := ((extract_envs old_svc).map EnvItem.container).dedup
  let new_envs := ((extract_envs new_svc).map EnvItem.container).dedup
  ((new_envs.filter (fun c => decide (c ∉ old_envs))).map (env_added_change svc),
   (old_envs.filter (fun c => decide (c ∉ new_envs))).map (env_removed_change svc))

/-- `diff_engine._compare_volumes`. -/
def _compare_volumes (svc : String) (old_svc new_svc : Service) :
    List FieldChange × List FieldChange :=
  let old_vols := ((extract_volumes old_svc).map VolumeItem.container).dedup
  let new_vols := ((extract_volumes new_svc).map VolumeItem.container).dedup
  ((new_vols.filter (fun c => decide (c ∉ old_vols))).map (vol_added_change svc),
   (old_vols.filter (fun c => decide (c ∉ new_vols))).map (vol_removed_change svc))

/-- The added `FieldChange`s emitted for one common service. -/
def common_added (oldC newC : Compose) (svc : String) : List FieldChange :=
  match lookupFirst oldC.services svc, lookupFirst newC.services svc with
  | some o, some n =>
    (_compare_ports svc o n).1 ++ (_compare_envs svc o n).1 ++ (_compare_volumes svc o n).1
  | _, _ => []

/-- The removed `FieldChange`s emitted for one common service. -/
def common_removed (oldC newC : Compose) (svc : String) : List FieldChange :=
  match lookupFirst oldC.services svc, lookupFirst newC.services svc with
  | some o, some n =>
    (_compare_ports svc o n).2 ++ (_compare_envs svc o n).2 ++ (_compare_volumes svc o n).2
  | _, _ => []

/-- The added `FieldChange`s emitted for every field of a newly added service. -/
def added_service_fields (newC : Compose) (svc : String) : List FieldChange :=
  match lookupFirst newC.services svc with
  | some n =>
    (extract_ports n).map (fun p => port_added_change svc p.container) ++
    (extract_envs n).map (fun e => env_added_change svc e.container) ++
    (extract_volumes n).map (fun v => vol_added_change svc v.container)
  | none => []

/-- `diff_engine.compute_compose_diff`.  Python iterates name sets; the
embedding iterates deduplicated name lists (membership is what matters). -/
def compute_compose_diff (oldC newC : Compose) : ComposeDiff :=
  let old_names := oldC.services.map Prod.fst
  let new_names := newC.services.map Prod.fst
  let added_services := (new_names.filter (fun n => decide (n ∉ old_names))).dedup
  let removed_services := (old_names.filter (fun n => decide (n ∉ new_names))).dedup
  let common := (new_names.filter (fun n => decide (n ∈ old_names))).dedup
  { added_services := added_services,
    removed_services := removed_services,
    added_fields :=
      concat_map (common_added oldC newC) common ++
      concat_map (added_service_fields newC) added_services,
    removed_fields := concat_map (common_removed oldC newC) common,
    modified_fields := [] }

/-- The port-merging loop body of `diff_engine.merge_meta_with_diff`: keep the
old description when the identifier is in the old lookup and its old
description is non-empty. -/
def merge_port_item (old_port_map : String → Option PortItem) (p : PortItem) : PortItem :=
  match old_port_map p.container with
  | some oldp => if oldp.description ≠ "" then { p with description := oldp.description } else p
  | none => p

/-- The env-merging loop body of `diff_engine.merge_meta_with_diff`. -/
def merge_env_item (old_env_map : String → Option EnvItem) (e : EnvItem) : EnvItem :=
  match old_env_map e.container with
  | some olde => if olde.description ≠ "" then { e with description := olde.description } else e
  | none => e

/-- The volume-merging loop body of `diff_engine.merge_meta_with_diff`. -/
def merge_volume_item (old_vol_map : String → Option VolumeItem) (v : VolumeItem) : VolumeItem :=
  match old_vol_map v.container with
  | some oldv => if oldv.description ≠ "" then { v with description := oldv.description } else v
  | none => v

/-- The per-service merging of `diff_engine.merge_meta_with_diff`. -/
def merge_service_meta (old_svc new_svc : ServiceMeta) : ServiceMeta :=
  { envs := new_svc.envs.map (merge_env_item (last_by_key EnvItem.container old_svc.envs)),
    ports := new_svc.ports.map (merge_port_item (last_by_key PortItem.container old_svc.ports)),
    volumes := new_svc.volumes.map (merge_volume_item (last_by_key VolumeItem.container old_svc.volumes)) }

/-- The first app-level if-statement of `merge_meta_with_diff`: keep a
non-empty old title that differs from the skeleton title. -/
def merge_app_title (old_app a : AppMeta) : AppMeta :=
  if old_app.title ≠ "" ∧ old_app.title ≠ a.title then { a with title := old_app.title } else a

/-- The second app-level if-statement of `merge_meta_with_diff`: keep a
non-empty old tagline that differs from the templated default built from
`new_meta.app.title` — which at this point is already the MERGED title. -/
def merge_app_tagline (old_app a : AppMeta) : AppMeta :=
  if old_app.tagline ≠ "" ∧ old_app.tagline ≠ a.title ++ " on CasaOS" then
    { a with tagline := old_app.tagline } else a

/-- The third app-level if-statement of `merge_meta_with_diff`: keep an old
description longer than 100 characters. -/
def merge_app_description (old_app a : AppMeta) : AppMeta :=
  if old_app.description ≠ "" ∧ 100 < old_app.description.length then
    { a with description := old_app.description } else a

/-- The app-level heuristics of `diff_engine.merge_meta_with_diff`, run in
source order: title, then tagline, then description. -/
def merge_app_meta (old_app new_app : AppMeta) : AppMeta :=
  merge_app_description old_app (merge_app_tagline old_app (merge_app_title old_app new_app))

/-- `diff_engine.merge_meta_with_diff`.  The `diff` argument is accepted but
never read by the function body, exactly as in the source. -/
def merge_meta_with_diff (old_meta new_meta : CasaOSMeta) (diff : ComposeDiff) : CasaOSMeta :=
  { app := merge_app_meta old_meta.app new_meta.app,
    services := new_meta.services.map (fun p =>
      match lookupFirst old_meta.services p.1 with
      | none => p
      | some old_svc => (p.1, merge_service_meta old_svc p.2)) }

/-! ## version_manager.py

The work directory contents become the `Store` record.  History files
`meta.<timestamp>.json` become `Nat` keys: the fixed-width timestamp names
sort lexicographically exactly as the timestamps sort numerically.  `hash`
stands for SHA-256 over the raw file bytes. -/

/-- The `config.json` contents (with the default values of `_load_config`). -/
structure VMConfig where
  max_history_versions : Nat := 3
  enable_version_control : Bool := true
  auto_backup_before_update : Bool := true
deriving DecidableEq, Repr

/-- A compose file on disk: its raw bytes (hashed for change detection) and
the compose mapping they parse to (`none` when the YAML is not a mapping). -/
structure ComposeFile where
  bytes : String
  data : Option Compose := none
deriving DecidableEq, Repr

/-- The state of a `VersionManager` work directory. -/
structure Store where
  current : Option CasaOSMeta := none
  compose_hash : Option String := none
  compose_backup : Option ComposeFile := none
  history : List (Nat × CasaOSMeta) := []
  config : VMConfig := {}
deriving DecidableEq, Repr

/-- Writing `history/meta.<now>.json`: overwrites a file of the same name,
otherwise adds a new file. -/
def insertKeyHist (k : Nat) (m : CasaOSMeta) (h : List (Nat × CasaOSMeta)) :
    List (Nat × CasaOSMeta) :=
  if h.any (fun p => p.1 == k) then h.map (fun p => if p.1 == k then (k, m) else p)
  else (k, m) :: h

/-- Descending insertion by key, for `sorted(..., reverse=True)`. -/
def insert_by_key_desc (p : Nat × CasaOSMeta) : List (Nat × CasaOSMeta) → List (Nat × CasaOSMeta)
  | [] => [p]
  | q :: t => if q.1 ≤ p.1 then p :: q :: t else q :: insert_by_key_desc p t

/-- `sorted(self.history_dir.glob("meta.*.json"), reverse=True)`. -/
def sort_by_key_desc : List (Nat × CasaOSMeta) → List (Nat × CasaOSMeta)
  | [] => []
  | p :: t => insert_by_key_desc p (sort_by_key_desc t)

/-- `VersionManager.compute_compose_hash` (the file exists in our model). -/
def compute_compose_hash (hash : String → String) (f : ComposeFile) : String :=
  hash f.bytes

/-- `VersionManager.has_compose_changed`. -/
def has_compose_changed (hash : String → String) (s : Store) (f : ComposeFile) : Bool :=
  match s.compose_hash with
  | none => true
  | some old_hash => decide (old_hash ≠ compute_compose_hash hash f)

/-- `VersionManager.save_current_meta` (JSON round-trips to the same value). -/
def save_current_meta (s : Store) (meta : CasaOSMeta) : Store :=
  { s with current := some meta }

/-- `VersionManager.load_current_meta`. -/
def load_current_meta (s : Store) : Option CasaOSMeta :=
  s.current

/-- `VersionManager._cleanup_old_versions`: `max_versions` is the configured
bound and `sort_by_key_desc s.history` the newest-first version listing. -/
def _cleanup_old_versions (s : Store) : Store :=
  if s.config.max_history_versions < (sort_by_key_desc s.history).length then
    { s with history := (sort_by_key_desc s.history).take s.config.max_history_versions }
  else s

/-- `VersionManager.backup_to_history`: copies the current metadata to a new
history key `now`, then trims old versions; returns the key. -/
def backup_to_history (now : Nat) (s : Store) : Store × Option Nat :=
  match s.current with
  | none => (s, none)
  | some m =>
    (_cleanup_old_versions { s with history := insertKeyHist now m s.history }, some now)

/-- `VersionManager.list_history` (newest first). -/
def list_history (s : Store) : List (Nat × CasaOSMeta) :=
  sort_by_key_desc s.history

/-- Looking up a history file by name. -/
def findKeyHist : List (Nat × CasaOSMeta) → Nat → Option CasaOSMeta
  | [], _ => none
  | p :: t, k => if p.1 = k then some p.2 else findKeyHist t k

/-- The failures `rollback_to_version` can raise: the version file does not
exist (checked up front), or the copy itself fails because the file vanished
(rotation during the pre-rollback backup can delete it). -/
inductive RollbackErr where
  | notFound
  | copyFailed
deriving DecidableEq, Repr

/-- `VersionManager.rollback_to_version`.  Returns the store after the call
together with `none` on success or the raised error; when an error is raised
the returned store is the state at raise time. -/
def rollback_to_version (now : Nat) (s : Store) (key : Nat) : Store × Option RollbackErr :=
  match findKeyHist s.history key with
  | none => (s, some .notFound)
  | some _ =>
    let s1 := if s.current.isSome then (backup_to_history now s).1 else s
    match findKeyHist s1.history key with
    | some m => ({ s1 with current := some m }, none)
    | none => (s1, some .copyFailed)

/-- `VersionManager.update_compose_hash`. -/
def update_compose_hash (hash : String → String) (s : Store) (f : ComposeFile) : Store :=
  { s with compose_hash := some (compute_compose_hash hash f) }

/-- `VersionManager.backup_compose_file` (the file exists in our model). -/
def backup_compose_file (s : Store) (f : ComposeFile) : Store :=
  { s with compose_backup := some f }

/-- `VersionManager.get_backed_up_compose`. -/
def get_backed_up_compose (s : Store) : Option ComposeFile :=
  s.compose_backup

/-! ## incremental.py -/

/-- One `ports`/`envs`/`volumes` entry of a user `params` dict. -/
structure FieldParam where
  container : Option String := none
  description : String := ""
deriving DecidableEq, Repr

/-- The per-service part of a user `params` dict. -/
structure SvcParams where
  ports : List FieldParam := []
  envs : List FieldParam := []
  volumes : List FieldParam := []
deriving DecidableEq, Repr

/-- The `app` part of a user `params` dict; a missing key and an empty value
are both falsy in the source, so they are identified here. -/
structure AppParams where
  title : String := ""
  tagline : String := ""
  description : String := ""
  category : String := ""
  author : String := ""
  developer : String := ""
  icon : String := ""
  thumbnail : String := ""
  screenshot_link : List String := []
  index : String := ""
  scheme : String := ""
  architectures : List String := []
deriving DecidableEq, Repr

/-- A user `params` dict. -/
structure Params where
  app : AppParams := {}
  services : List (String × SvcParams) := []
deriving DecidableEq, Repr

/-- Sets the description of the first matching item of a list. -/
def set_port_desc_first (c desc : String) : List PortItem → List PortItem
  | [] => []
  | p :: t => if p.container = c then { p with description := desc } :: t
              else p :: set_port_desc_first c desc t

/-- The mutation `port_map[container].description = desc`: the dict maps a
container to the LAST list element with that container. -/
def set_port_desc_last (items : List PortItem) (c desc : String) : List PortItem :=
  (set_port_desc_first c desc items.reverse).reverse

/-- Sets the description of the first matching env item of a list. -/
def set_env_desc_first (c desc : String) : List EnvItem → List EnvItem
  | [] => []
  | e :: t => if e.container = c then { e with description := desc } :: t
              else e :: set_env_desc_first c desc t

/-- The mutation `env_map[container].description = desc`. -/
def set_env_desc_last (items : List EnvItem) (c desc : String) : List EnvItem :=
  (set_env_desc_first c desc items.reverse).reverse

/-- Sets the description of the first matching volume item of a list. -/
def set_vol_desc_first (c desc : String) : List VolumeItem → List VolumeItem
  | [] => []
  | v :: t => if v.container = c then { v with description := desc } :: t
              else v :: set_vol_desc_first c desc t

/-- The mutation `vol_map[container].description = desc`. -/
def set_vol_desc_last (items : List VolumeItem) (c desc : String) : List VolumeItem :=
  (set_vol_desc_first c desc items.reverse).reverse

/-- The ports loop of `apply_params_to_meta` over one service. -/
def apply_port_params (fps : List FieldParam) (items : List PortItem) : List PortItem :=
  fps.foldl (fun its fp =>
    match fp.container with
    | some c =>
      if c ≠ "" ∧ c ∈ its.map PortItem.container then
        (if fp.description ≠ "" then set_port_desc_last its c fp.description else its)
      else its
    | none => its) items

/-- The envs loop of `apply_params_to_meta` over one service. -/
def apply_env_params (fps : List FieldParam) (items : List EnvItem) : List EnvItem :=
  fps.foldl (fun its fp =>
    match fp.container with
    | some c =>
      if c ≠ "" ∧ c ∈ its.map EnvItem.container then
        (if fp.description ≠ "" then set_env_desc_last its c fp.description else its)
      else its
    | none => its) items

/-- The volumes loop of `apply_params_to_meta` over one service. -/
def apply_vol_params (fps : List FieldParam) (items : List VolumeItem) : List VolumeItem :=
  fps.foldl (fun its fp =>
    match fp.container with
    | some c =>
      if c ≠ "" ∧ c ∈ its.map VolumeItem.container then
        (if fp.description ≠ "" then set_vol_desc_last its c fp.description else its)
      else its
    | none => its) items

/-- The app-level part of `incremental.apply_params_to_meta`. -/
def apply_app_params (a : AppParams) (app : AppMeta) : AppMeta :=
  let app := if a.title ≠ "" then { app with title := a.title } else app
  let app := if a.tagline ≠ "" then { app with tagline := a.tagline } else app
  let app := if a.description ≠ "" then { app with description := a.description } else app
  let app := if a.category ≠ "" then { app with category := a.category } else app
  let app := if a.author ≠ "" then { app with author := a.author } else app
  let app := if a.developer ≠ "" then { app with developer := a.developer } else app
  let app := if a.icon ≠ "" then { app with icon := a.icon } else app
  let app := if a.thumbnail ≠ "" then { app with thumbnail := a.thumbnail } else app
  let app := if !a.screenshot_link.isEmpty then { app with screenshot_link := a.screenshot_link } else app
  let app := if a.index ≠ "" then { app with index := a.index } else app
  let app := if a.scheme ≠ "" then { app with scheme := a.scheme } else app
  if !a.architectures.isEmpty then { app with architectures := a.architectures } else app

/-- `incremental.apply_params_to_meta`. -/
def apply_params_to_meta (meta : CasaOSMeta) (params : Params) : CasaOSMeta :=
  let meta := { meta with app := apply_app_params params.app meta.app }
  params.services.foldl (fun m nameAndParams =>
    { m with services := m.services.map (fun p =>
        if p.1 = nameAndParams.1 then
          (p.1,
           { ports := apply_port_params nameAndParams.2.ports p.2.ports,
             envs := apply_env_params nameAndParams.2.envs p.2.envs,
             volumes := apply_vol_params nameAndParams.2.volumes p.2.volumes })
        else p) }) meta

/-- `incremental._has_empty_descriptions`. -/
def _has_empty_descriptions (meta : CasaOSMeta) : Bool :=
  (str_trim meta.app.title) == "" || (str_trim meta.app.tagline) == "" || (str_trim meta.app.description) == "" ||
  meta.services.any (fun p =>
    p.2.ports.any (fun x => (str_trim x.description) == "") ||
    p.2.envs.any (fun x => (str_trim x.description) == "") ||
    p.2.volumes.any (fun x => (str_trim x.description) == ""))

/-- `incremental._run_llm_fill`, with the external service as the oracle
`fill`; the second component counts external fill calls. -/
def _run_llm_fill (fill : CasaOSMeta → CasaOSMeta) (meta : CasaOSMeta)
    (only_fill_empty : Bool) : CasaOSMeta × Nat :=
  if only_fill_empty && !_has_empty_descriptions meta then (meta, 0)
  else (fill meta, 1)

/-- `incremental._save_and_backup`. -/
def _save_and_backup (hash : String → String) (now : Nat) (s : Store)
    (new_meta : CasaOSMeta) (f : ComposeFile) (old_meta : Option CasaOSMeta) : Store :=
  let s1 := if old_meta.isSome && s.config.auto_backup_before_update
            then (backup_to_history now s).1 else s
  backup_compose_file (update_compose_hash hash (save_current_meta s1 new_meta) f) f

/-- Committing a metadata tree as the orchestrator does: `old_meta` is the
`load_current_meta` result from the start of the cycle. -/
def commitMeta (hash : String → String) (now : Nat) (s : Store)
    (m : CasaOSMeta) (f : ComposeFile) : Store :=
  _save_and_backup hash now s m f s.current

/-- `parser.load_compose_file` on an existing file. -/
def load_compose_file (f : ComposeFile) : Except String Compose :=
  match f.data with
  | some d => .ok d
  | none => .error "Compose file did not produce a mapping"

/-- The full-generation path of `incremental_update` (build a skeleton, apply
params, run an unconditional LLM fill when configured). -/
def full_generation (fill : CasaOSMeta → CasaOSMeta) (llm : Bool)
    (params : Option Params) (newCompose : Compose) : Except String (CasaOSMeta × Nat) :=
  match build_casaos_meta newCompose with
  | none => .error "Compose file must include services"
  | some skel =>
    let m1 := match params with
              | some p => apply_params_to_meta skel p
              | none => skel
    .ok (if llm then (fill m1, 1) else (m1, 0))

/-- Steps 2 to 8 of `incremental.incremental_update` (everything after the
fingerprint check missed): load the compose data, branch on prior metadata
and descriptor backup, generate or merge, then save and back up. -/
def incremental_update_miss (hash : String → String) (fill : CasaOSMeta → CasaOSMeta)
    (now : Nat) (f : ComposeFile) (params : Option Params) (force_regenerate : Bool)
    (llm : Bool) (s : Store) :
    Except String (CasaOSMeta × Option ComposeDiff × Store × Nat) :=
    match load_compose_file f with
    | .error e => .error e
    | .ok newCompose =>
      match load_current_meta s, force_regenerate with
      | none, _ =>
        (match full_generation fill llm params newCompose with
         | .error e => .error e
         | .ok (m2, c) => .ok (m2, none, _save_and_backup hash now s m2 f none, c))
      | some om, true =>
        (match full_generation fill llm params newCompose with
         | .error e => .error e
         | .ok (m2, c) => .ok (m2, none, _save_and_backup hash now s m2 f (some om), c))
      | some om, false =>
        match get_backed_up_compose s with
        | none =>
          (match full_generation fill llm params newCompose with
           | .error e => .error e
           | .ok (m2, c) => .ok (m2, none, _save_and_backup hash now s m2 f (some om), c))
        | some old_f =>
          match load_compose_file old_f with
          | .error e => .error e
          | .ok oldCompose =>
            let diff := compute_compose_diff oldCompose newCompose
            match build_casaos_meta newCompose with
            | none => .error "Compose file must include services"
            | some skel =>
              let merged := merge_meta_with_diff om skel diff
              let m1 := match params with
                        | some p => apply_params_to_meta merged p
                        | none => merged
              let mc := if llm then _run_llm_fill fill m1 true else (m1, 0)
              .ok (mc.1, some diff, _save_and_backup hash now s mc.1 f (some om), mc.2)

/-- `incremental.incremental_update`.  `llm` records whether an `llm_config`
was supplied, `fill` is the external service, `now` the timestamp used for
any history backup.  Returns the metadata, the diff (if one was computed),
the resulting store and the number of external fill calls.  Step 1 is the
fingerprint check: an unchanged compose file with a cached current metadata
returns the cache untouched. -/
def incremental_update (hash : String → String) (fill : CasaOSMeta → CasaOSMeta)
    (now : Nat) (f : ComposeFile) (params : Option Params) (force_regenerate : Bool)
    (llm : Bool) (s : Store) :
    Except String (CasaOSMeta × Option ComposeDiff × Store × Nat) :=
  match (if force_regenerate then none
         else if has_compose_changed hash s f then none
         else load_current_meta s) with
  | some cached => .ok (cached, none, s, 0)
  | none => incremental_update_miss hash fill now f params force_regenerate llm s

/-- The operations of a commit-and-backup sequence against one store. -/
inductive StoreOp where
  | commit (now : Nat) (m : CasaOSMeta) (f : ComposeFile)
  | pushHistory (now : Nat)
deriving DecidableEq, Repr

/-- Running one store operation. -/
def apply_store_op (hash : String → String) (op : StoreOp) (s : Store) : Store :=
  match op with
  | .commit now m f => commitMeta hash now s m f
  | .pushHistory now => (backup_to_history now s).1

/-- Running a sequence of store operations, oldest first. -/
def run_store_ops (hash : String → String) : List StoreOp → Store → Store
  | [], s => s
  | op :: rest, s => run_store_ops hash rest (apply_store_op hash op s)

/-! ## Basic lemmas about the merging functions -/

theorem merge_port_item_container (f : String → Option PortItem) (p : PortItem) :
    (merge_port_item f p).container = p.container := by
  unfold merge_port_item
  cases f p.container with
  | none => rfl
  | some q => dsimp only; split <;> rfl

theorem merge_env_item_container (f : String → Option EnvItem) (e : EnvItem) :
    (merge_env_item f e).container = e.container := by
  unfold merge_env_item
  cases f e.container with
  | none => rfl
  | some q => dsimp only; split <;> rfl

theorem merge_volume_item_container (f : String → Option VolumeItem) (v : VolumeItem) :
    (merge_volume_item f v).container = v.container := by
  unfold merge_volume_item
  cases f v.container with
  | none => rfl
  | some q => dsimp only; split <;> rfl

theorem merge_service_meta_ports_containers (o n : ServiceMeta) :
    (merge_service_meta o n).ports.map PortItem.container = n.ports.map PortItem.container := by
  show (n.ports.map _).map _ = _
  rw [List.map_map]
  exact List.map_congr_left (fun a _ => merge_port_item_container _ a)

theorem merge_service_meta_envs_containers (o n : ServiceMeta) :
    (merge_service_meta o n).envs.map EnvItem.container = n.envs.map EnvItem.container := by
  show (n.envs.map _).map _ = _
  rw [List.map_map]
  exact List.map_congr_left (fun a _ => merge_env_item_container _ a)

theorem merge_service_meta_volumes_containers (o n : ServiceMeta) :
    (merge_service_meta o n).volumes.map VolumeItem.container
      = n.volumes.map VolumeItem.container := by
  show (n.volumes.map _).map _ = _
  rw [List.map_map]
  exact List.map_congr_left (fun a _ => merge_volume_item_container _ a)

/-- The per-entry function the services map of `merge_meta_with_diff` applies. -/
def merge_entry (old_meta : CasaOSMeta) (p : String × ServiceMeta) : String × ServiceMeta :=
  match lookupFirst old_meta.services p.1 with
  | none => p
  | some old_svc => (p.1, merge_service_meta old_svc p.2)

theorem merge_meta_with_diff_services (old_meta new_meta : CasaOSMeta) (diff : ComposeDiff) :
    (merge_meta_with_diff old_meta new_meta diff).services
      = new_meta.services.map (merge_entry old_meta) := rfl

theorem merge_entry_fst (old_meta : CasaOSMeta) (p : String × ServiceMeta) :
    (merge_entry old_meta p).1 = p.1 := by
  unfold merge_entry
  cases lookupFirst old_meta.services p.1 <;> rfl

/-! ## Concrete fixtures used by witnesses and counterexamples -/

def dummyApp : AppMeta := { category := "", author := "", main := "", port_map := "" }

def dummyMeta : CasaOSMeta := { app := dummyApp }

def sampleApp : AppMeta :=
  { category := "Utilities", author := "me", main := "web", port_map := "80" }

def metaA : CasaOSMeta := { app := { sampleApp with title := "A" } }

def metaB : CasaOSMeta := { app := { sampleApp with title := "B" } }

/-- The identity hash stands in for SHA-256 in concrete runs. -/
def hashW : String → String := fun s => s

/-- The identity fill oracle stands in for the LLM in concrete runs. -/
def fillW : CasaOSMeta → CasaOSMeta := fun m => m

/-! ## C10 -/

/-- Claim C10: the merge result does not depend on the diff argument — for
every old metadata tree, skeleton tree and any two diff reports `d1`, `d2`,
`merge_meta_with_diff old skeleton d1 = merge_meta_with_diff old skeleton d2`
(the function body never reads its `diff` parameter). -/
theorem merge_ignores_diff (old_meta new_meta : CasaOSMeta) (d1 d2 : ComposeDiff) :
    merge_meta_with_diff old_meta new_meta d1 = merge_meta_with_diff old_meta new_meta d2 := rfl

/-! ## C2 -/

/-- Claim C2: shape preservation — the output of `merge_meta_with_diff` has
exactly the shape of its `newSkeleton` argument: the same service names in
the same order, and per service the same identifier lists for ports, envs
and volumes; merge never introduces or removes a service or an identifier. -/
theorem merge_shape_preservation (old_meta skeleton : CasaOSMeta) (diff : ComposeDiff) :
    (merge_meta_with_diff old_meta skeleton diff).services.map Prod.fst
        = skeleton.services.map Prod.fst ∧
    List.Forall₂ (fun (ms qs : String × ServiceMeta) =>
        ms.1 = qs.1 ∧
        ms.2.ports.map PortItem.container = qs.2.ports.map PortItem.container ∧
        ms.2.envs.map EnvItem.container = qs.2.envs.map EnvItem.container ∧
        ms.2.volumes.map VolumeItem.container = qs.2.volumes.map VolumeItem.container)
      (merge_meta_with_diff old_meta skeleton diff).services skeleton.services := by
  rw [merge_meta_with_diff_services]
  constructor
  · rw [List.map_map]
    exact List.map_congr_left (fun p _ => merge_entry_fst old_meta p)
  · rw [List.forall₂_map_left_iff]
    rw [List.forall₂_same]
    intro p _
    refine ⟨merge_entry_fst old_meta p, ?_⟩
    unfold merge_entry
    cases lookupFirst old_meta.services p.1 with
    | none => exact ⟨rfl, rfl, rfl⟩
    | some o =>
      exact ⟨merge_service_meta_ports_containers o p.2,
             merge_service_meta_envs_containers o p.2,
             merge_service_meta_volumes_containers o p.2⟩

/-! ## C7 -/

/-- Claim C7: rolling back to a history key that does not exist raises
NotFound and leaves the store state (current metadata, history, fingerprint,
descriptor backup) unchanged: the returned store is the input store. -/
theorem rollback_unknown_key (s : Store) (key now : Nat)
    (h : findKeyHist s.history key = none) :
    rollback_to_version now s key = (s, some RollbackErr.notFound) := by
  unfold rollback_to_version
  rw [h]

/-- Witness for C7 at a concrete store whose history holds only key 1. -/
theorem rollback_unknown_key_witness :
    rollback_to_version 5 { current := some metaB, history := [(1, metaA)] } 2
      = ({ current := some metaB, history := [(1, metaA)] }, some RollbackErr.notFound) :=
  rollback_unknown_key { current := some metaB, history := [(1, metaA)] } 2 5 (by decide)

/-! ## C8 -/

theorem merge_app_tagline_title (o a : AppMeta) : (merge_app_tagline o a).title = a.title := by
  unfold merge_app_tagline; split <;> rfl

theorem merge_app_description_title (o a : AppMeta) :
    (merge_app_description o a).title = a.title := by
  unfold merge_app_description; split <;> rfl

theorem merge_app_title_description (o a : AppMeta) :
    (merge_app_title o a).description = a.description := by
  unfold merge_app_title; split <;> rfl

theorem merge_app_tagline_description (o a : AppMeta) :
    (merge_app_tagline o a).description = a.description := by
  unfold merge_app_tagline; split <;> rfl

theorem merge_app_description_tagline (o a : AppMeta) :
    (merge_app_description o a).tagline = a.tagline := by
  unfold merge_app_description; split <;> rfl

theorem merge_meta_with_diff_app (old_meta new_meta : CasaOSMeta) (diff : ComposeDiff) :
    (merge_meta_with_diff old_meta new_meta diff).app
      = merge_app_meta old_meta.app new_meta.app := rfl

/-- Old metadata for the C8 counterexample. -/
def oldMetaCE8 : CasaOSMeta :=
  { app :=
      { sampleApp with
          title := "Foo"
          tagline := "Foo on CasaOS" } }

/-- Skeleton metadata for the C8 counterexample. -/
def skelCE8 : CasaOSMeta :=
  { app :=
      { sampleApp with
          title := "Bar"
          tagline := "" } }

/-- Counterexample to claim C8 as stated.  Old title "Foo" differs from the
skeleton title "Bar", so the merged title becomes "Foo".  The old tagline
"Foo on CasaOS" is non-empty and differs from the skeleton-derived templated
default "Bar on CasaOS", so the claim requires it to be kept — but the code
compares against the template built from the already-merged title,
"Foo on CasaOS", finds them equal, and drops the old tagline. -/
theorem app_merge_heuristics_counterexample :
    (oldMetaCE8.app.tagline ≠ "" ∧
     oldMetaCE8.app.tagline ≠ skelCE8.app.title ++ " on CasaOS" ∧
     (merge_meta_with_diff oldMetaCE8 skelCE8 {}).app.tagline ≠ oldMetaCE8.app.tagline ∧
     (merge_meta_with_diff oldMetaCE8 skelCE8 {}).app.tagline = "") := by
  decide

/-- Claim C8 (amended): the title clause as stated; the tagline clause with
the templated default computed from the MERGED title (the old title when the
title clause preserved it, otherwise the skeleton title); and the old
description is kept only when its length exceeds 100 characters. -/
theorem app_merge_heuristics_amended (old_meta skeleton : CasaOSMeta) (diff : ComposeDiff) :
    (old_meta.app.title ≠ "" → old_meta.app.title ≠ skeleton.app.title →
       (merge_meta_with_diff old_meta skeleton diff).app.title = old_meta.app.title) ∧
    (old_meta.app.tagline ≠ "" →
       old_meta.app.tagline
           ≠ (merge_meta_with_diff old_meta skeleton diff).app.title ++ " on CasaOS" →
       (merge_meta_with_diff old_meta skeleton diff).app.tagline = old_meta.app.tagline) ∧
    ((merge_meta_with_diff old_meta skeleton diff).app.description
         ≠ skeleton.app.description →
       100 < old_meta.app.description.length ∧
       (merge_meta_with_diff old_meta skeleton diff).app.description
           = old_meta.app.description) := by
  rw [merge_meta_with_diff_app]
  unfold merge_app_meta
  refine ⟨?_, ?_, ?_⟩
  · intro h1 h2
    rw [merge_app_description_title, merge_app_tagline_title]
    unfold merge_app_title
    rw [if_pos ⟨h1, h2⟩]
  · intro h1 h2
    rw [merge_app_description_title, merge_app_tagline_title] at h2
    rw [merge_app_description_tagline]
    unfold merge_app_tagline
    rw [if_pos ⟨h1, h2⟩]
  · intro hne
    unfold merge_app_description at hne ⊢
    by_cases hc : old_meta.app.description ≠ "" ∧ 100 < old_meta.app.description.length
    · rw [if_pos hc] at hne ⊢
      exact ⟨hc.2, rfl⟩
    · rw [if_neg hc] at hne
      rw [merge_app_tagline_description, merge_app_title_description] at hne
      exact absurd rfl hne

/-- Old metadata for the C8 witness: customized title, tagline, short
description. -/
def oldMetaC8 : CasaOSMeta :=
  { app :=
      { sampleApp with
          title := "Foo"
          tagline := "custom words"
          description := "short" } }

/-- Skeleton metadata for the C8 witness. -/
def skelC8 : CasaOSMeta :=
  { app :=
      { sampleApp with
          title := "Bar"
          description := "skel" } }

/-- Witness for C8 (amended) at concrete metadata: the old title "Foo" is
kept and the old tagline "custom words" is kept. -/
theorem app_merge_heuristics_amended_witness :
    (merge_meta_with_diff oldMetaC8 skelC8 {}).app.title = "Foo" ∧
    (merge_meta_with_diff oldMetaC8 skelC8 {}).app.tagline = "custom words" := by
  have h := app_merge_heuristics_amended oldMetaC8 skelC8 {}
  refine ⟨h.1 (by decide) (by decide), h.2.1 (by decide) ?_⟩
  rw [h.1 (by decide) (by decide)]
  decide

/-! ## C1 -/

/-- Claim C1: text preservation — for every old metadata tree, skeleton tree
and diff report, for every service present in both trees (i.e. every merged
service whose name is found in the old metadata), if the old lookup for an
identifier X yields description text T and T is non-empty, then every entry
with identifier X in the merged service (for the corresponding kind: port,
env or volume) carries description T. -/
theorem merge_text_preservation (old_meta skeleton : CasaOSMeta) (diff : ComposeDiff)
    (svc : String) (merged_svc : ServiceMeta)
    (hmem : (svc, merged_svc) ∈ (merge_meta_with_diff old_meta skeleton diff).services)
    (old_svc : ServiceMeta)
    (hold : lookupFirst old_meta.services svc = some old_svc)
    (X T : String) (hT : T ≠ "") :
    ((last_by_key PortItem.container old_svc.ports X).map PortItem.description = some T →
       ∀ q ∈ merged_svc.ports, q.container = X → q.description = T) ∧
    ((last_by_key EnvItem.container old_svc.envs X).map EnvItem.description = some T →
       ∀ q ∈ merged_svc.envs, q.container = X → q.description = T) ∧
    ((last_by_key VolumeItem.container old_svc.volumes X).map VolumeItem.description = some T →
       ∀ q ∈ merged_svc.volumes, q.container = X → q.description = T) := by
  rw [merge_meta_with_diff_services] at hmem
  obtain ⟨p0, hp0, heq⟩ := List.mem_map.mp hmem
  have hfst : p0.1 = svc := by
    have := merge_entry_fst old_meta p0
    rw [heq] at this
    exact this.symm
  have hsvc : merged_svc = merge_service_meta old_svc p0.2 := by
    have h2 := congrArg Prod.snd heq
    unfold merge_entry at h2
    rw [hfst, hold] at h2
    exact h2.symm
  subst hsvc
  refine ⟨?_, ?_, ?_⟩
  · intro hx q hq hqX
    obtain ⟨r, hr, hqr⟩ := List.mem_map.mp hq
    obtain ⟨pi, hpi, hpd⟩ := Option.map_eq_some'.mp hx
    have hrc : r.container = X := by
      rw [← hqr] at hqX
      rw [← merge_port_item_container (last_by_key PortItem.container old_svc.ports) r]
      exact hqX
    rw [← hqr]
    unfold merge_port_item
    rw [hrc, hpi]
    dsimp only
    rw [hpd, if_pos hT]
  · intro hx q hq hqX
    obtain ⟨r, hr, hqr⟩ := List.mem_map.mp hq
    obtain ⟨pi, hpi, hpd⟩ := Option.map_eq_some'.mp hx
    have hrc : r.container = X := by
      rw [← hqr] at hqX
      rw [← merge_env_item_container (last_by_key EnvItem.container old_svc.envs) r]
      exact hqX
    rw [← hqr]
    unfold merge_env_item
    rw [hrc, hpi]
    dsimp only
    rw [hpd, if_pos hT]
  · intro hx q hq hqX
    obtain ⟨r, hr, hqr⟩ := List.mem_map.mp hq
    obtain ⟨pi, hpi, hpd⟩ := Option.map_eq_some'.mp hx
    have hrc : r.container = X := by
      rw [← hqr] at hqX
      rw [← merge_volume_item_container (last_by_key VolumeItem.container old_svc.volumes) r]
      exact hqX
    rw [← hqr]
    unfold merge_volume_item
    rw [hrc, hpi]
    dsimp only
    rw [hpd, if_pos hT]

/-- The old "web" service metadata for the C1 witness: authored descriptions. -/
def oldSvcC1 : ServiceMeta :=
  { ports := [{ container := "80", description := "Web UI port" }],
    envs := [{ container := "TZ", description := "Time zone" }],
    volumes := [{ container := "/data", description := "Data dir" }] }

/-- The old metadata tree for the C1 witness. -/
def oldMetaC1 : CasaOSMeta := { app := sampleApp, services := [("web", oldSvcC1)] }

/-- The skeleton "web" service for the C1 witness: same identifiers, blank
descriptions. -/
def skelSvcC1 : ServiceMeta :=
  { ports := [{ container := "80" }],
    envs := [{ container := "TZ" }],
    volumes := [{ container := "/data" }] }

/-- The skeleton tree for the C1 witness. -/
def skelC1 : CasaOSMeta := { app := sampleApp, services := [("web", skelSvcC1)] }

/-- Witness for C1 at concrete trees: the authored port description of port
"80" survives the merge. -/
theorem merge_text_preservation_witness :
    ((merge_service_meta oldSvcC1 skelSvcC1).ports.headD { container := "" }).description
      = "Web UI port" :=
  (merge_text_preservation oldMetaC1 skelC1 {} "web" (merge_service_meta oldSvcC1 skelSvcC1)
      (by decide) oldSvcC1 (by decide) "80" "Web UI port" (by decide)).1 (by decide)
    ((merge_service_meta oldSvcC1 skelSvcC1).ports.headD { container := "" })
    (by decide) (by decide)

/-! ## C9 -/

theorem build_casaos_meta_services (C : Compose) (m : CasaOSMeta)
    (h : build_casaos_meta C = some m) :
    m.services = C.services.map (fun p => (p.1, build_service_meta p.2)) := by
  unfold build_casaos_meta at h
  cases hs : C.services with
  | nil => rw [hs] at h; exact absurd h (by simp)
  | cons a t =>
    rw [hs] at h
    dsimp only at h
    cases hi : infer_main_service (a :: t) with
    | none => rw [hi] at h; exact absurd h (by simp)
    | some ms =>
      rw [hi] at h
      dsimp only at h
      injection h with h
      rw [← h]

theorem mem_zip_map_self {α β : Type} (f : α → β) (l : List α) (pq : β × α)
    (h : pq ∈ (l.map f).zip l) : pq.1 = f pq.2 := by
  induction l with
  | nil => cases h
  | cons a t ih =>
    cases h with
    | head => rfl
    | tail _ h2 => exact ih h2

/-- Counterexample to claim C9 as stated: a service publishing the same
container port under two host ports ("8080:80" and "8081:80") yields a
skeleton whose port list contains the identifier "80" twice — not exactly
once. -/
def composeDup : Compose :=
  { services := [("web", { ports := [.str "8080:80", .str "8081:80"] })] }

/-- Counterexample to claim C9 as stated: at `composeDup`, the skeleton built
by `build_casaos_meta` lists identifier "80" twice in the "web" port list. -/
theorem skeleton_exactly_once_counterexample :
    (build_casaos_meta composeDup).map (fun m =>
        m.services.map (fun q => (q.1, (q.2.ports.map PortItem.container).count "80")))
      = some [("web", 2)] := by
  decide

/-- Claim C9 (amended): the skeleton built by `build_casaos_meta` lists, per
service, exactly the identifier occurrences extracted from that service of
the descriptor, in order (so no omissions and no foreign identifiers); each
identifier therefore appears exactly once whenever the extracted identifiers
of the service are pairwise distinct for that kind — which can fail, e.g.
when two port rules share a container port. -/
theorem skeleton_identifier_lists_amended (C : Compose) (m : CasaOSMeta)
    (h : build_casaos_meta C = some m) :
    m.services.map Prod.fst = C.services.map Prod.fst ∧
    (∀ pq ∈ m.services.zip C.services,
       pq.1.2.ports.map PortItem.container = (extract_ports pq.2.2).map PortItem.container ∧
       pq.1.2.envs.map EnvItem.container = (extract_envs pq.2.2).map EnvItem.container ∧
       pq.1.2.volumes.map VolumeItem.container
           = (extract_volumes pq.2.2).map VolumeItem.container) ∧
    (∀ pq ∈ m.services.zip C.services,
       (((extract_ports pq.2.2).map PortItem.container).Nodup →
          (pq.1.2.ports.map PortItem.container).Nodup) ∧
       (((extract_envs pq.2.2).map EnvItem.container).Nodup →
          (pq.1.2.envs.map EnvItem.container).Nodup) ∧
       (((extract_volumes pq.2.2).map VolumeItem.container).Nodup →
          (pq.1.2.volumes.map VolumeItem.container).Nodup)) := by
  have hsvc := build_casaos_meta_services C m h
  have hids : ∀ pq ∈ m.services.zip C.services,
      pq.1.2.ports.map PortItem.container = (extract_ports pq.2.2).map PortItem.container ∧
      pq.1.2.envs.map EnvItem.container = (extract_envs pq.2.2).map EnvItem.container ∧
      pq.1.2.volumes.map VolumeItem.container
          = (extract_volumes pq.2.2).map VolumeItem.container := by
    intro pq hpq
    rw [hsvc] at hpq
    have := mem_zip_map_self (fun p => (p.1, build_service_meta p.2)) C.services pq hpq
    rw [this]
    exact ⟨rfl, rfl, rfl⟩
  refine ⟨?_, hids, ?_⟩
  · rw [hsvc, List.map_map]
    exact List.map_congr_left (fun p _ => rfl)
  · intro pq hpq
    obtain ⟨h1, h2, h3⟩ := hids pq hpq
    exact ⟨fun hn => h1 ▸ hn, fun hn => h2 ▸ hn, fun hn => h3 ▸ hn⟩

/-- A compose descriptor without identifier collisions, for the C9 witness. -/
def composeC9 : Compose :=
  { services :=
      [("web",
        { image := some "linuxserver/nginx"
          ports := [.str "8080:80"]
          environment := some (.dict [("TZ", "UTC")])
          volumes := [.str "/host:/data"] })] }

/-- The skeleton built from `composeC9`. -/
def metaC9 : CasaOSMeta := (build_casaos_meta composeC9).getD dummyMeta

/-- Witness for C9 (amended): at `composeC9` the skeleton service names match
the descriptor service names. -/
theorem skeleton_identifier_lists_amended_witness :
    metaC9.services.map Prod.fst = composeC9.services.map Prod.fst :=
  (skeleton_identifier_lists_amended composeC9 metaC9 (by decide)).1

/-! ## C5 -/

theorem length_insert_by_key_desc (p : Nat × CasaOSMeta) (l : List (Nat × CasaOSMeta)) :
    (insert_by_key_desc p l).length = l.length + 1 := by
  induction l with
  | nil => rfl
  | cons q t ih =>
    unfold insert_by_key_desc
    split
    · rfl
    · simp only [List.length_cons, ih]

theorem length_sort_by_key_desc (l : List (Nat × CasaOSMeta)) :
    (sort_by_key_desc l).length = l.length := by
  induction l with
  | nil => rfl
  | cons p t ih =>
    unfold sort_by_key_desc
    rw [length_insert_by_key_desc, ih]
    rfl

theorem insert_by_key_desc_perm (p : Nat × CasaOSMeta) (l : List (Nat × CasaOSMeta)) :
    (insert_by_key_desc p l).Perm (p :: l) := by
  induction l with
  | nil => exact List.Perm.refl _
  | cons q t ih =>
    unfold insert_by_key_desc
    split
    · exact List.Perm.refl _
    · exact (ih.cons q).trans (List.Perm.swap p q t)

theorem sort_by_key_desc_perm (l : List (Nat × CasaOSMeta)) :
    (sort_by_key_desc l).Perm l := by
  induction l with
  | nil => exact List.Perm.refl _
  | cons p t ih =>
    exact (insert_by_key_desc_perm p (sort_by_key_desc t)).trans (ih.cons p)

/-- Keys only decrease along the sorted history list. -/
def KeyDesc (a b : Nat × CasaOSMeta) : Prop := b.1 ≤ a.1

theorem insert_by_key_desc_pairwise (p : Nat × CasaOSMeta) (l : List (Nat × CasaOSMeta))
    (h : l.Pairwise KeyDesc) : (insert_by_key_desc p l).Pairwise KeyDesc := by
  induction l with
  | nil => exact List.pairwise_singleton _ _
  | cons q t ih =>
    unfold insert_by_key_desc
    split
    · rename_i hqp
      refine List.Pairwise.cons ?_ h
      intro b hb
      cases hb with
      | head => exact hqp
      | tail _ hbt =>
        have := (List.pairwise_cons.mp h).1 b hbt
        exact le_trans this hqp
    · rename_i hqp
      have hq : q.1 ≤ p.1 → False := hqp
      refine List.Pairwise.cons ?_ (ih (List.pairwise_cons.mp h).2)
      intro b hb
      have hb2 : b ∈ p :: t := (insert_by_key_desc_perm p t).mem_iff.mp hb
      cases hb2 with
      | head => exact le_of_lt (Nat.lt_of_not_le hq)
      | tail _ hbt => exact (List.pairwise_cons.mp h).1 b hbt

theorem sort_by_key_desc_pairwise (l : List (Nat × CasaOSMeta)) :
    (sort_by_key_desc l).Pairwise KeyDesc := by
  induction l with
  | nil => exact List.Pairwise.nil
  | cons p t ih => exact insert_by_key_desc_pairwise p (sort_by_key_desc t) ih

theorem length_insertKeyHist (k : Nat) (m : CasaOSMeta) (h : List (Nat × CasaOSMeta)) :
    (insertKeyHist k m h).length ≤ h.length + 1 := by
  unfold insertKeyHist
  split
  · rw [List.length_map]; exact Nat.le_succ _
  · exact Nat.le_refl _

theorem cleanup_history_bound (s : Store)
    (h : s.history.length ≤ s.config.max_history_versions) :
    (_cleanup_old_versions s).history.length ≤ s.config.max_history_versions := by
  unfold _cleanup_old_versions
  split
  · rw [List.length_take, length_sort_by_key_desc]
    exact le_trans (Nat.min_le_left _ _) (Nat.le_refl _)
  · exact h

theorem cleanup_history_bound_always (s : Store) :
    (_cleanup_old_versions s).history.length ≤
      max s.config.max_history_versions s.history.length := by
  unfold _cleanup_old_versions
  split
  · rw [List.length_take, length_sort_by_key_desc]
    exact le_trans (Nat.min_le_left _ _) (le_max_left _ _)
  · exact le_max_right _ _

theorem cleanup_config (s : Store) : (_cleanup_old_versions s).config = s.config := by
  unfold _cleanup_old_versions
  split <;> rfl

theorem backup_to_history_config (now : Nat) (s : Store) :
    (backup_to_history now s).1.config = s.config := by
  unfold backup_to_history
  cases s.current with
  | none => rfl
  | some m => exact cleanup_config _

theorem backup_to_history_bound (now : Nat) (s : Store)
    (h : s.history.length ≤ s.config.max_history_versions) :
    (backup_to_history now s).1.history.length ≤ s.config.max_history_versions := by
  unfold backup_to_history
  cases s.current with
  | none => exact h
  | some m =>
    dsimp only
    unfold _cleanup_old_versions
    split
    · rw [List.length_take, length_sort_by_key_desc]
      exact le_trans (Nat.min_le_left _ _) (Nat.le_refl _)
    · rename_i hlt
      rw [Nat.not_lt] at hlt
      rw [length_sort_by_key_desc] at hlt
      exact hlt

theorem save_and_backup_config (hash : String → String) (now : Nat) (s : Store)
    (m : CasaOSMeta) (f : ComposeFile) (om : Option CasaOSMeta) :
    (_save_and_backup hash now s m f om).config = s.config := by
  unfold _save_and_backup backup_compose_file update_compose_hash save_current_meta
  split
  · exact backup_to_history_config now s
  · rfl

theorem save_and_backup_bound (hash : String → String) (now : Nat) (s : Store)
    (m : CasaOSMeta) (f : ComposeFile) (om : Option CasaOSMeta)
    (h : s.history.length ≤ s.config.max_history_versions) :
    (_save_and_backup hash now s m f om).history.length ≤ s.config.max_history_versions := by
  unfold _save_and_backup backup_compose_file update_compose_hash save_current_meta
  split
  · exact backup_to_history_bound now s h
  · exact h

theorem apply_store_op_config (hash : String → String) (op : StoreOp) (s : Store) :
    (apply_store_op hash op s).config = s.config := by
  cases op with
  | commit now m f => exact save_and_backup_config hash now s m f s.current
  | pushHistory now => exact backup_to_history_config now s

theorem apply_store_op_bound (hash : String → String) (op : StoreOp) (s : Store)
    (h : s.history.length ≤ s.config.max_history_versions) :
    (apply_store_op hash op s).history.length ≤ s.config.max_history_versions := by
  cases op with
  | commit now m f => exact save_and_backup_bound hash now s m f s.current h
  | pushHistory now => exact backup_to_history_bound now s h

/-- Claim C5: history bound — for every sequence of commits and history
backups run with `max_history_versions = N` (rotation always applies), the
history returned by `list_history` never exceeds N entries; and the trimming
performed after each backup deletes exactly the entries with the oldest keys
(every deleted entry has a key at most the key of every surviving entry). -/
theorem history_bound (hash : String → String) (ops : List StoreOp) (s0 : Store)
    (h0 : (list_history s0).length ≤ s0.config.max_history_versions) (t : Store) :
    (list_history (run_store_ops hash ops s0)).length ≤ s0.config.max_history_versions ∧
    (∀ p ∈ (_cleanup_old_versions t).history, ∀ q ∈ t.history,
        q ∉ (_cleanup_old_versions t).history → q.1 ≤ p.1) := by
  constructor
  · unfold list_history at h0 ⊢
    rw [length_sort_by_key_desc] at h0 ⊢
    induction ops generalizing s0 with
    | nil => exact h0
    | cons op rest ih =>
      show (run_store_ops hash rest (apply_store_op hash op s0)).history.length ≤ _
      have hcfg := apply_store_op_config hash op s0
      have hb := apply_store_op_bound hash op s0 h0
      rw [← hcfg]
      exact ih (apply_store_op hash op s0) (by rw [hcfg]; exact hb)
  · intro p hp q hq hnq
    unfold _cleanup_old_versions at hp hnq
    by_cases hsplit : t.config.max_history_versions < (sort_by_key_desc t.history).length
    · rw [if_pos hsplit] at hp hnq
      dsimp only at hp hnq
      have hqsort : q ∈ sort_by_key_desc t.history := (sort_by_key_desc_perm _).mem_iff.mpr hq
      have hqdrop : q ∈ (sort_by_key_desc t.history).drop t.config.max_history_versions := by
        have := List.take_append_drop t.config.max_history_versions (sort_by_key_desc t.history)
        rw [← this] at hqsort
        cases List.mem_append.mp hqsort with
        | inl h => exact absurd h hnq
        | inr h => exact h
      have hpair := sort_by_key_desc_pairwise t.history
      have := List.take_append_drop t.config.max_history_versions (sort_by_key_desc t.history)
      rw [← this] at hpair
      exact (List.pairwise_append.mp hpair).2.2 p hp q hqdrop
    · rw [if_neg hsplit] at hp hnq
      exact absurd hq hnq

/-- A three-commit, one-backup operation sequence for the C5 witness. -/
def opsC5 : List StoreOp :=
  [.commit 1 metaA { bytes := "a" }, .commit 2 metaB { bytes := "b" },
   .commit 3 metaA { bytes := "c" }, .pushHistory 4, .commit 5 metaB { bytes := "d" },
   .pushHistory 6]

/-- Witness for C5: six operations against an empty store with the default
bound of 3 leave at most 3 history entries. -/
theorem history_bound_witness :
    (list_history (run_store_ops hashW opsC5 {})).length ≤ 3 :=
  (history_bound hashW opsC5 {} (by decide) {}).1

/-! ## C6 -/

theorem cleanup_of_le (s : Store)
    (h : s.history.length ≤ s.config.max_history_versions) :
    _cleanup_old_versions s = s := by
  unfold _cleanup_old_versions
  rw [if_neg]
  rw [Nat.not_lt, length_sort_by_key_desc]
  exact h

theorem backup_of_le (now : Nat) (s : Store) (m : CasaOSMeta) (hc : s.current = some m)
    (hlen : (insertKeyHist now m s.history).length ≤ s.config.max_history_versions) :
    (backup_to_history now s).1 = { s with history := insertKeyHist now m s.history } := by
  unfold backup_to_history
  rw [hc]
  exact cleanup_of_le _ hlen

theorem commit_of_none (hash : String → String) (now : Nat) (s : Store)
    (m : CasaOSMeta) (f : ComposeFile) (hc : s.current = none) :
    commitMeta hash now s m f =
      { s with
          current := some m
          compose_hash := some (compute_compose_hash hash f)
          compose_backup := some f } := by
  unfold commitMeta _save_and_backup
  rw [hc]
  rfl

theorem save_and_backup_some (hash : String → String) (now : Nat) (s : Store)
    (m om : CasaOSMeta) (f : ComposeFile)
    (hauto : s.config.auto_backup_before_update = true) :
    _save_and_backup hash now s m f (some om) =
      { (backup_to_history now s).1 with
          current := some m
          compose_hash := some (compute_compose_hash hash f)
          compose_backup := some f } := by
  unfold _save_and_backup
  rw [if_pos]
  · rfl
  · rw [hauto]; rfl

/-- A store configured to keep only ONE history entry. -/
def storeN1 : Store := { config := { max_history_versions := 1 } }

/-- A small compose file fixture. -/
def fileW : ComposeFile :=
  { bytes := "services: web", data := some { services := [("web", {})] } }

/-- Counterexample to claim C6 as stated.  With `max_history_versions = 1`:
commit A, then commit B with auto-backup (A is pushed to history under key
2), then roll back to key 2.  The rollback first backs up B, and the rotation
that backup triggers deletes the entry holding A before it can be restored;
the copy then fails and the current metadata is still B, not A. -/
theorem rollback_correctness_counterexample :
    (commitMeta hashW 2 (commitMeta hashW 1 storeN1 metaA fileW) metaB fileW).history
        = [(2, metaA)] ∧
    (rollback_to_version 3
        (commitMeta hashW 2 (commitMeta hashW 1 storeN1 metaA fileW) metaB fileW) 2).2
        = some RollbackErr.copyFailed ∧
    load_current_meta (rollback_to_version 3
        (commitMeta hashW 2 (commitMeta hashW 1 storeN1 metaA fileW) metaB fileW) 2).1
        = some metaB ∧
    metaB ≠ metaA := by
  decide

/-- Claim C6 (amended): rollback correctness holds provided the history bound
is at least 2 (so the rotation triggered by the backup inside rollback cannot
delete the entry holding A) and the backup key of the rollback differs from
the key of A.  Then
after commit(A), commit(B) with auto-backup (A pushed under key `t2`),
rolling back to `t2` succeeds, `loadCurrent` returns A, and a backup of B
(under the rollback timestamp key `t3`) now exists in history. -/
theorem rollback_correctness_amended (hash : String → String) (A B : CasaOSMeta)
    (f g : ComposeFile) (s0 s1 s2 : Store) (t1 t2 t3 : Nat)
    (hcur : s0.current = none) (hhist : s0.history = [])
    (hN : 2 ≤ s0.config.max_history_versions)
    (hauto : s0.config.auto_backup_before_update = true)
    (hk : t3 ≠ t2)
    (hs1 : s1 = commitMeta hash t1 s0 A f)
    (hs2 : s2 = commitMeta hash t2 s1 B g) :
    (rollback_to_version t3 s2 t2).2 = none ∧
    load_current_meta (rollback_to_version t3 s2 t2).1 = some A ∧
    (t3, B) ∈ (rollback_to_version t3 s2 t2).1.history := by
  have h1 : s1 =
      { s0 with
          current := some A
          compose_hash := some (compute_compose_hash hash f)
          compose_backup := some f } := by
    rw [hs1]
    exact commit_of_none hash t1 s0 A f hcur
  have h2 : s2 =
      { s0 with
          current := some B
          compose_hash := some (compute_compose_hash hash g)
          compose_backup := some g
          history := [(t2, A)] } := by
    rw [hs2, h1]
    unfold commitMeta
    show _save_and_backup hash t2 _ B g (some A) = _
    rw [save_and_backup_some hash t2
          { s0 with
              current := some A
              compose_hash := some (compute_compose_hash hash f)
              compose_backup := some f }
          B A g hauto]
    rw [backup_of_le t2
          { s0 with
              current := some A
              compose_hash := some (compute_compose_hash hash f)
              compose_backup := some f }
          A rfl
          (by
            show (insertKeyHist t2 A s0.history).length ≤ s0.config.max_history_versions
            rw [hhist]
            show 1 ≤ s0.config.max_history_versions
            omega)]
    dsimp only
    rw [hhist]
    rfl
  have hne : (t2 == t3) = false := by
    rw [beq_eq_false_iff_ne]
    exact fun h => hk h.symm
  have hins : insertKeyHist t3 B [(t2, A)] = [(t3, B), (t2, A)] := by
    unfold insertKeyHist
    rw [show ([(t2, A)].any (fun p => p.1 == t3)) = false by simp [hne]]
    rfl
  have hback : (backup_to_history t3 s2).1 = { s2 with history := [(t3, B), (t2, A)] } := by
    rw [backup_of_le t3 s2 B (by rw [h2])]
    · rw [show s2.history = [(t2, A)] by rw [h2], hins]
    · rw [show s2.history = [(t2, A)] by rw [h2], hins,
          show s2.config = s0.config by rw [h2]]
      show 2 ≤ s0.config.max_history_versions
      exact hN
  have hfind1 : findKeyHist s2.history t2 = some A := by
    rw [show s2.history = [(t2, A)] by rw [h2]]
    simp [findKeyHist]
  have hfind2 : findKeyHist [(t3, B), (t2, A)] t2 = some A := by
    unfold findKeyHist
    rw [if_neg hk]
    unfold findKeyHist
    rw [if_pos rfl]
  unfold rollback_to_version
  rw [hfind1]
  rw [show s2.current.isSome = true by rw [h2]; rfl]
  dsimp only
  rw [if_pos rfl, hback]
  rw [show ({ s2 with history := [(t3, B), (t2, A)] } : Store).history
      = [(t3, B), (t2, A)] from rfl, hfind2]
  exact ⟨rfl, rfl, List.mem_cons_self _ _⟩

/-- Witness for C6 (amended) at a concrete scenario with the default bound 3
and keys 1, 2, 3. -/
theorem rollback_correctness_amended_witness :
    (rollback_to_version 3 (commitMeta hashW 2 (commitMeta hashW 1 {} metaA fileW) metaB fileW)
        2).2 = none ∧
    load_current_meta (rollback_to_version 3
        (commitMeta hashW 2 (commitMeta hashW 1 {} metaA fileW) metaB fileW) 2).1 = some metaA ∧
    (3, metaB) ∈ (rollback_to_version 3
        (commitMeta hashW 2 (commitMeta hashW 1 {} metaA fileW) metaB fileW) 2).1.history :=
  rollback_correctness_amended hashW metaA metaB fileW fileW {}
    (commitMeta hashW 1 {} metaA fileW)
    (commitMeta hashW 2 (commitMeta hashW 1 {} metaA fileW) metaB fileW)
    1 2 3 rfl rfl (by decide) rfl (by decide) rfl rfl

/-! ## C3 -/

theorem mem_concat_map {α β : Type} (f : α → List β) (l : List α) (b : β) :
    b ∈ concat_map f l ↔ ∃ a, a ∈ l ∧ b ∈ f a := by
  induction l with
  | nil => simp [concat_map]
  | cons x t ih =>
    constructor
    · intro h
      cases List.mem_append.mp h with
      | inl h1 => exact ⟨x, List.mem_cons_self x t, h1⟩
      | inr h2 =>
        obtain ⟨a, ha, hb⟩ := ih.mp h2
        exact ⟨a, List.mem_cons_of_mem x ha, hb⟩
    · rintro ⟨a, ha, hb⟩
      cases List.mem_cons.mp ha with
      | inl he => exact List.mem_append.mpr (Or.inl (he ▸ hb))
      | inr ht => exact List.mem_append.mpr (Or.inr (ih.mpr ⟨a, ht, hb⟩))

theorem lookupFirst_eq_some_mem {α : Type} (l : List (String × α)) (k : String) (a : α)
    (h : lookupFirst l k = some a) : k ∈ l.map Prod.fst := by
  induction l with
  | nil => cases h
  | cons p t ih =>
    unfold lookupFirst at h
    by_cases hp : p.1 = k
    · rw [List.map_cons]
      exact List.mem_cons.mpr (Or.inl hp.symm)
    · rw [if_neg hp] at h
      exact List.mem_cons_of_mem _ (ih h)

theorem lookupFirst_isSome_of_mem {α : Type} (l : List (String × α)) (k : String)
    (h : k ∈ l.map Prod.fst) : ∃ a, lookupFirst l k = some a := by
  induction l with
  | nil => exact absurd h (by simp)
  | cons p t ih =>
    unfold lookupFirst
    by_cases hp : p.1 = k
    · exact ⟨p.2, by rw [if_pos hp]⟩
    · rw [if_neg hp]
      apply ih
      rw [List.map_cons] at h
      cases List.mem_cons.mp h with
      | inl he => exact absurd he.symm hp
      | inr ht => exact ht

theorem lookup_zip {α β : Type} (A : List (String × α)) (B : List (String × β))
    (hfst : A.map Prod.fst = B.map Prod.fst) (k : String) (a : α)
    (ha : lookupFirst A k = some a) :
    ∃ b, lookupFirst B k = some b ∧ ((k, a), (k, b)) ∈ A.zip B := by
  induction A generalizing B with
  | nil => cases ha
  | cons p t ih =>
    obtain ⟨p1, p2⟩ := p
    cases B with
    | nil => exact absurd hfst (by simp)
    | cons q u =>
      obtain ⟨q1, q2⟩ := q
      rw [List.map_cons, List.map_cons] at hfst
      injection hfst with h1 h2
      dsimp only at h1
      unfold lookupFirst at ha ⊢
      by_cases hp : p1 = k
      · dsimp only at ha ⊢
        rw [if_pos hp] at ha
        injection ha with ha
        subst hp
        subst ha
        refine ⟨q2, ?_, ?_⟩
        · rw [if_pos h1.symm]
        · rw [← h1]
          exact List.mem_cons_self _ _
      · dsimp only at ha ⊢
        rw [if_neg hp] at ha
        rw [if_neg (by rw [← h1]; exact hp)]
        obtain ⟨b, hb, hmem⟩ := ih u h2 ha
        exact ⟨b, hb, List.mem_cons_of_mem _ hmem⟩

theorem last_by_key_eq_none {α : Type} (key : α → String) (xs : List α) (k : String)
    (h : ∀ x ∈ xs, key x ≠ k) : last_by_key key xs k = none := by
  induction xs with
  | nil => rfl
  | cons x t ih =>
    unfold last_by_key
    rw [ih (fun y hy => h y (List.mem_cons_of_mem x hy))]
    dsimp only
    rw [if_neg (h x (List.mem_cons_self x t))]

theorem extract_ports_description (s : Service) (p : PortItem) (h : p ∈ extract_ports s) :
    p.description = "" := by
  unfold extract_ports at h
  obtain ⟨hc, hmem, heq⟩ := List.mem_filterMap.mp h
  cases h2 : hc.2 with
  | none => rw [h2] at heq; exact absurd heq (by simp)
  | some c =>
    rw [h2] at heq
    dsimp only at heq
    by_cases hcc : c = ""
    · rw [if_pos hcc] at heq
      exact absurd heq (by simp)
    · rw [if_neg hcc] at heq
      injection heq with heq
      rw [← heq]

theorem extract_envs_description (s : Service) (e : EnvItem) (h : e ∈ extract_envs s) :
    e.description = "" := by
  unfold extract_envs at h
  obtain ⟨kv, hmem, heq⟩ := List.mem_filterMap.mp h
  dsimp only at heq
  by_cases hcc : str_trim kv.1 = ""
  · rw [if_pos hcc] at heq
    exact absurd heq (by simp)
  · rw [if_neg hcc] at heq
    injection heq with heq
    rw [← heq]

theorem extract_volumes_description (s : Service) (v : VolumeItem)
    (h : v ∈ extract_volumes s) : v.description = "" := by
  unfold extract_volumes at h
  obtain ⟨entry, hmem, heq⟩ := List.mem_filterMap.mp h
  cases h2 : parse_volume_entry entry with
  | none => rw [h2] at heq; exact absurd heq (by simp)
  | some cp =>
    rw [h2] at heq
    dsimp only at heq
    by_cases hcc : cp = ""
    · rw [if_pos hcc] at heq
      exact absurd heq (by simp)
    · rw [if_neg hcc] at heq
      injection heq with heq
      rw [← heq]

theorem merged_port_blank (old_meta skel : CasaOSMeta) (diff : ComposeDiff) (newC : Compose)
    (hskel : build_casaos_meta newC = some skel) (svc X : String)
    (hX : ∀ old_svc, lookupFirst old_meta.services svc = some old_svc →
            X ∉ old_svc.ports.map PortItem.container) :
    ∀ ms ∈ (merge_meta_with_diff old_meta skel diff).services, ms.1 = svc →
      ∀ q ∈ ms.2.ports, q.container = X → q.description = "" := by
  intro ms hms hfst q hq hqX
  rw [merge_meta_with_diff_services] at hms
  obtain ⟨p0, hp0, heqm⟩ := List.mem_map.mp hms
  have hp0fst : p0.1 = svc := by
    rw [← hfst, ← heqm]
    exact (merge_entry_fst old_meta p0).symm
  rw [build_casaos_meta_services newC skel hskel] at hp0
  obtain ⟨q0, hq0, heq0⟩ := List.mem_map.mp hp0
  have hports : p0.2.ports = extract_ports q0.2 := by
    rw [← heq0]
    rfl
  cases hl : lookupFirst old_meta.services p0.1 with
  | none =>
    have hmsp : ms = p0 := by
      rw [← heqm]
      unfold merge_entry
      rw [hl]
    rw [hmsp, hports] at hq
    exact extract_ports_description q0.2 q hq
  | some osvc =>
    have hms2 : ms.2 = merge_service_meta osvc p0.2 := by
      rw [← heqm]
      unfold merge_entry
      rw [hl]
    rw [hms2] at hq
    obtain ⟨r, hr, hqr⟩ := List.mem_map.mp hq
    have hrX : r.container = X := by
      rw [← hqr] at hqX
      rw [← merge_port_item_container (last_by_key PortItem.container osvc.ports) r]
      exact hqX
    have hnone : last_by_key PortItem.container osvc.ports X = none := by
      apply last_by_key_eq_none
      intro x hx hxX
      exact (hX osvc (by rw [← hp0fst]; exact hl)) (hxX ▸ List.mem_map_of_mem _ hx)
    have hqres : q = r := by
      rw [← hqr]
      unfold merge_port_item
      rw [hrX, hnone]
    rw [hqres]
    rw [hports] at hr
    exact extract_ports_description q0.2 r hr

theorem merged_env_blank (old_meta skel : CasaOSMeta) (diff : ComposeDiff) (newC : Compose)
    (hskel : build_casaos_meta newC = some skel) (svc X : String)
    (hX : ∀ old_svc, lookupFirst old_meta.services svc = some old_svc →
            X ∉ old_svc.envs.map EnvItem.container) :
    ∀ ms ∈ (merge_meta_with_diff old_meta skel diff).services, ms.1 = svc →
      ∀ q ∈ ms.2.envs, q.container = X → q.description = "" := by
  intro ms hms hfst q hq hqX
  rw [merge_meta_with_diff_services] at hms
  obtain ⟨p0, hp0, heqm⟩ := List.mem_map.mp hms
  have hp0fst : p0.1 = svc := by
    rw [← hfst, ← heqm]
    exact (merge_entry_fst old_meta p0).symm
  rw [build_casaos_meta_services newC skel hskel] at hp0
  obtain ⟨q0, hq0, heq0⟩ := List.mem_map.mp hp0
  have henvs : p0.2.envs = extract_envs q0.2 := by
    rw [← heq0]
    rfl
  cases hl : lookupFirst old_meta.services p0.1 with
  | none =>
    have hmsp : ms = p0 := by
      rw [← heqm]
      unfold merge_entry
      rw [hl]
    rw [hmsp, henvs] at hq
    exact extract_envs_description q0.2 q hq
  | some osvc =>
    have hms2 : ms.2 = merge_service_meta osvc p0.2 := by
      rw [← heqm]
      unfold merge_entry
      rw [hl]
    rw [hms2] at hq
    obtain ⟨r, hr, hqr⟩ := List.mem_map.mp hq
    have hrX : r.container = X := by
      rw [← hqr] at hqX
      rw [← merge_env_item_container (last_by_key EnvItem.container osvc.envs) r]
      exact hqX
    have hnone : last_by_key EnvItem.container osvc.envs X = none := by
      apply last_by_key_eq_none
      intro x hx hxX
      exact (hX osvc (by rw [← hp0fst]; exact hl)) (hxX ▸ List.mem_map_of_mem _ hx)
    have hqres : q = r := by
      rw [← hqr]
      unfold merge_env_item
      rw [hrX, hnone]
    rw [hqres]
    rw [henvs] at hr
    exact extract_envs_description q0.2 r hr

theorem merged_vol_blank (old_meta skel : CasaOSMeta) (diff : ComposeDiff) (newC : Compose)
    (hskel : build_casaos_meta newC = some skel) (svc X : String)
    (hX : ∀ old_svc, lookupFirst old_meta.services svc = some old_svc →
            X ∉ old_svc.volumes.map VolumeItem.container) :
    ∀ ms ∈ (merge_meta_with_diff old_meta skel diff).services, ms.1 = svc →
      ∀ q ∈ ms.2.volumes, q.container = X → q.description = "" := by
  intro ms hms hfst q hq hqX
  rw [merge_meta_with_diff_services] at hms
  obtain ⟨p0, hp0, heqm⟩ := List.mem_map.mp hms
  have hp0fst : p0.1 = svc := by
    rw [← hfst, ← heqm]
    exact (merge_entry_fst old_meta p0).symm
  rw [build_casaos_meta_services newC skel hskel] at hp0
  obtain ⟨q0, hq0, heq0⟩ := List.mem_map.mp hp0
  have hvols : p0.2.volumes = extract_volumes q0.2 := by
    rw [← heq0]
    rfl
  cases hl : lookupFirst old_meta.services p0.1 with
  | none =>
    have hmsp : ms = p0 := by
      rw [← heqm]
      unfold merge_entry
      rw [hl]
    rw [hmsp, hvols] at hq
    exact extract_volumes_description q0.2 q hq
  | some osvc =>
    have hms2 : ms.2 = merge_service_meta osvc p0.2 := by
      rw [← heqm]
      unfold merge_entry
      rw [hl]
    rw [hms2] at hq
    obtain ⟨r, hr, hqr⟩ := List.mem_map.mp hq
    have hrX : r.container = X := by
      rw [← hqr] at hqX
      rw [← merge_volume_item_container (last_by_key VolumeItem.container osvc.volumes) r]
      exact hqX
    have hnone : last_by_key VolumeItem.container osvc.volumes X = none := by
      apply last_by_key_eq_none
      intro x hx hxX
      exact (hX osvc (by rw [← hp0fst]; exact hl)) (hxX ▸ List.mem_map_of_mem _ hx)
    have hqres : q = r := by
      rw [← hqr]
      unfold merge_volume_item
      rw [hrX, hnone]
    rw [hqres]
    rw [hvols] at hr
    exact extract_volumes_description q0.2 r hr

/-- Claim C3: new-field blankness — for compose descriptors `oldC`/`newC`,
with old metadata whose service names and per-service identifier lists match
the old descriptor, every `FieldChange` in the `addedFields` of
`compute_compose_diff oldC newC` names an identifier whose entries in the
merged pre-fill metadata `merge_meta_with_diff old_meta (build_casaos_meta
newC) diff` all have empty description text. -/
theorem new_field_blankness (oldC newC : Compose) (old_meta skel : CasaOSMeta)
    (hfst : old_meta.services.map Prod.fst = oldC.services.map Prod.fst)
    (hids : ∀ pq ∈ old_meta.services.zip oldC.services,
        pq.1.2.ports.map PortItem.container = (extract_ports pq.2.2).map PortItem.container ∧
        pq.1.2.envs.map EnvItem.container = (extract_envs pq.2.2).map EnvItem.container ∧
        pq.1.2.volumes.map VolumeItem.container
            = (extract_volumes pq.2.2).map VolumeItem.container)
    (hskel : build_casaos_meta newC = some skel) :
    ∀ fc ∈ (compute_compose_diff oldC newC).added_fields,
      ∃ svc X,
        (fc = port_added_change svc X ∧
          ∀ ms ∈ (merge_meta_with_diff old_meta skel
              (compute_compose_diff oldC newC)).services, ms.1 = svc →
            ∀ q ∈ ms.2.ports, q.container = X → q.description = "") ∨
        (fc = env_added_change svc X ∧
          ∀ ms ∈ (merge_meta_with_diff old_meta skel
              (compute_compose_diff oldC newC)).services, ms.1 = svc →
            ∀ q ∈ ms.2.envs, q.container = X → q.description = "") ∨
        (fc = vol_added_change svc X ∧
          ∀ ms ∈ (merge_meta_with_diff old_meta skel
              (compute_compose_diff oldC newC)).services, ms.1 = svc →
            ∀ q ∈ ms.2.volumes, q.container = X → q.description = "") := by
  intro fc hfc
  have hfc2 : fc ∈ concat_map (common_added oldC newC)
        (((newC.services.map Prod.fst).filter
            (fun n => decide (n ∈ oldC.services.map Prod.fst))).dedup) ∨
      fc ∈ concat_map (added_service_fields newC)
        (((newC.services.map Prod.fst).filter
            (fun n => decide (n ∉ oldC.services.map Prod.fst))).dedup) := by
    unfold compute_compose_diff at hfc
    dsimp only at hfc
    exact List.mem_append.mp hfc
  cases hfc2 with
  | inl hcommon =>
    obtain ⟨svc, hsvcmem, hfcsvc⟩ := (mem_concat_map _ _ _).mp hcommon
    have hsvc2 := List.mem_filter.mp (List.mem_dedup.mp hsvcmem)
    have hsvc_old : svc ∈ oldC.services.map Prod.fst := of_decide_eq_true hsvc2.2
    have hsvc_new : svc ∈ newC.services.map Prod.fst := hsvc2.1
    obtain ⟨o, ho⟩ := lookupFirst_isSome_of_mem oldC.services svc hsvc_old
    obtain ⟨n, hn⟩ := lookupFirst_isSome_of_mem newC.services svc hsvc_new
    unfold common_added at hfcsvc
    rw [ho, hn] at hfcsvc
    dsimp only at hfcsvc
    have hXnotold : ∀ (osvc : ServiceMeta),
        lookupFirst old_meta.services svc = some osvc →
        osvc.ports.map PortItem.container = (extract_ports o).map PortItem.container ∧
        osvc.envs.map EnvItem.container = (extract_envs o).map EnvItem.container ∧
        osvc.volumes.map VolumeItem.container
            = (extract_volumes o).map VolumeItem.container := by
      intro osvc holk
      obtain ⟨b, hb, hzip⟩ := lookup_zip old_meta.services oldC.services hfst svc osvc holk
      have hbo : b = o := by
        rw [hb] at ho
        injection ho
      rw [← hbo]
      exact hids ((svc, osvc), (svc, b)) hzip
    unfold _compare_ports _compare_envs _compare_volumes at hfcsvc
    dsimp only at hfcsvc
    cases List.mem_append.mp hfcsvc with
    | inl hpe =>
      cases List.mem_append.mp hpe with
      | inl hport =>
        obtain ⟨X, hXmem, hfcX⟩ := List.mem_map.mp hport
        have hXf := List.mem_filter.mp hXmem
        have hXnot : X ∉ (extract_ports o).map PortItem.container := by
          intro hmem
          exact (of_decide_eq_true hXf.2) (List.mem_dedup.mpr hmem)
        refine ⟨svc, X, Or.inl ⟨hfcX.symm, ?_⟩⟩
        apply merged_port_blank old_meta skel _ newC hskel svc X
        intro osvc holk
        rw [(hXnotold osvc holk).1]
        exact hXnot
      | inr henv =>
        obtain ⟨X, hXmem, hfcX⟩ := List.mem_map.mp henv
        have hXf := List.mem_filter.mp hXmem
        have hXnot : X ∉ (extract_envs o).map EnvItem.container := by
          intro hmem
          exact (of_decide_eq_true hXf.2) (List.mem_dedup.mpr hmem)
        refine ⟨svc, X, Or.inr (Or.inl ⟨hfcX.symm, ?_⟩)⟩
        apply merged_env_blank old_meta skel _ newC hskel svc X
        intro osvc holk
        rw [(hXnotold osvc holk).2.1]
        exact hXnot
    | inr hvol =>
      obtain ⟨X, hXmem, hfcX⟩ := List.mem_map.mp hvol
      have hXf := List.mem_filter.mp hXmem
      have hXnot : X ∉ (extract_volumes o).map VolumeItem.container := by
        intro hmem
        exact (of_decide_eq_true hXf.2) (List.mem_dedup.mpr hmem)
      refine ⟨svc, X, Or.inr (Or.inr ⟨hfcX.symm, ?_⟩)⟩
      apply merged_vol_blank old_meta skel _ newC hskel svc X
      intro osvc holk
      rw [(hXnotold osvc holk).2.2]
      exact hXnot
  | inr hadded =>
    obtain ⟨svc, hsvcmem, hfcsvc⟩ := (mem_concat_map _ _ _).mp hadded
    have hsvc2 := List.mem_filter.mp (List.mem_dedup.mp hsvcmem)
    have hsvc_notold : svc ∉ oldC.services.map Prod.fst := of_decide_eq_true hsvc2.2
    have hlolknone : ∀ (osvc : ServiceMeta),
        lookupFirst old_meta.services svc = some osvc → False := by
      intro osvc holk
      apply hsvc_notold
      rw [← hfst]
      exact lookupFirst_eq_some_mem old_meta.services svc osvc holk
    obtain ⟨n, hn⟩ := lookupFirst_isSome_of_mem newC.services svc hsvc2.1
    unfold added_service_fields at hfcsvc
    rw [hn] at hfcsvc
    dsimp only at hfcsvc
    cases List.mem_append.mp hfcsvc with
    | inl hpe =>
      cases List.mem_append.mp hpe with
      | inl hport =>
        obtain ⟨p, hp, hfcp⟩ := List.mem_map.mp hport
        refine ⟨svc, p.container, Or.inl ⟨hfcp.symm, ?_⟩⟩
        apply merged_port_blank old_meta skel _ newC hskel svc p.container
        intro osvc holk
        exact absurd (hlolknone osvc holk) not_false
      | inr henv =>
        obtain ⟨e, he, hfce⟩ := List.mem_map.mp henv
        refine ⟨svc, e.container, Or.inr (Or.inl ⟨hfce.symm, ?_⟩)⟩
        apply merged_env_blank old_meta skel _ newC hskel svc e.container
        intro osvc holk
        exact absurd (hlolknone osvc holk) not_false
    | inr hvol =>
      obtain ⟨v, hv, hfcv⟩ := List.mem_map.mp hvol
      refine ⟨svc, v.container, Or.inr (Or.inr ⟨hfcv.symm, ?_⟩)⟩
      apply merged_vol_blank old_meta skel _ newC hskel svc v.container
      intro osvc holk
      exact absurd (hlolknone osvc holk) not_false

/-- The old compose descriptor for the C3 witness: one service, one port. -/
def oldComposeC3 : Compose := { services := [("web", { ports := [.str "80"] })] }

/-- The new compose descriptor for the C3 witness: "web" gains port "81". -/
def newComposeC3 : Compose := { services := [("web", { ports := [.str "80", .str "81"] })] }

/-- Old metadata matching `oldComposeC3`, with authored text for port "80". -/
def oldMetaC3 : CasaOSMeta :=
  { app := sampleApp,
    services := [("web", { ports := [{ container := "80", description := "Web UI port" }] })] }

/-- The skeleton built from `newComposeC3`. -/
def skelC3 : CasaOSMeta := (build_casaos_meta newComposeC3).getD dummyMeta

/-- Witness for C3: the added port "81" of the concrete diff is blank in the
merged metadata. -/
theorem new_field_blankness_witness :
    ∃ svc X,
      (port_added_change "web" "81" = port_added_change svc X ∧
        ∀ ms ∈ (merge_meta_with_diff oldMetaC3 skelC3
            (compute_compose_diff oldComposeC3 newComposeC3)).services, ms.1 = svc →
          ∀ q ∈ ms.2.ports, q.container = X → q.description = "") ∨
      (port_added_change "web" "81" = env_added_change svc X ∧
        ∀ ms ∈ (merge_meta_with_diff oldMetaC3 skelC3
            (compute_compose_diff oldComposeC3 newComposeC3)).services, ms.1 = svc →
          ∀ q ∈ ms.2.envs, q.container = X → q.description = "") ∨
      (port_added_change "web" "81" = vol_added_change svc X ∧
        ∀ ms ∈ (merge_meta_with_diff oldMetaC3 skelC3
            (compute_compose_diff oldComposeC3 newComposeC3)).services, ms.1 = svc →
          ∀ q ∈ ms.2.volumes, q.container = X → q.description = "") :=
  new_field_blankness oldComposeC3 newComposeC3 oldMetaC3 skelC3
    (by decide) (by decide) (by decide)
    (port_added_change "web" "81") (by decide)

/-! ## C4 -/

theorem save_and_backup_current (hash : String → String) (now : Nat) (s : Store)
    (m : CasaOSMeta) (f : ComposeFile) (om : Option CasaOSMeta) :
    (_save_and_backup hash now s m f om).current = some m := rfl

theorem save_and_backup_hash (hash : String → String) (now : Nat) (s : Store)
    (m : CasaOSMeta) (f : ComposeFile) (om : Option CasaOSMeta) :
    (_save_and_backup hash now s m f om).compose_hash
      = some (compute_compose_hash hash f) := rfl

/-- Every successful run of the cache-miss path ends in `_save_and_backup`:
the resulting store has the returned metadata as current and the hash of the
processed compose file recorded. -/
theorem incremental_update_miss_post (hash : String → String) (fill : CasaOSMeta → CasaOSMeta)
    (now : Nat) (f : ComposeFile) (params : Option Params) (force : Bool) (llm : Bool)
    (s : Store) (m : CasaOSMeta) (d : Option ComposeDiff) (s1 : Store) (c : Nat)
    (h : incremental_update_miss hash fill now f params force llm s = .ok (m, d, s1, c)) :
    s1.current = some m ∧ s1.compose_hash = some (compute_compose_hash hash f) := by
  unfold incremental_update_miss at h
  split at h
  · exact absurd h (by simp)
  · split at h
    · -- no prior metadata: full generation
      split at h
      · exact absurd h (by simp)
      · rename_i m2c heq
        obtain ⟨hm, hd, hs, hc⟩ := by
          simpa using h
        rw [← hs, ← hm]
        exact ⟨rfl, rfl⟩
    · -- prior metadata, force: full generation
      split at h
      · exact absurd h (by simp)
      · obtain ⟨hm, hd, hs, hc⟩ := by
          simpa using h
        rw [← hs, ← hm]
        exact ⟨rfl, rfl⟩
    · -- prior metadata, no force: branch on descriptor backup
      split at h
      · -- no backed-up compose: full generation
        split at h
        · exact absurd h (by simp)
        · obtain ⟨hm, hd, hs, hc⟩ := by
            simpa using h
          rw [← hs, ← hm]
          exact ⟨rfl, rfl⟩
      · -- incremental path: diff, merge, selective fill
        split at h
        · exact absurd h (by simp)
        · split at h
          · exact absurd h (by simp)
          · obtain ⟨hm, hd, hs, hc⟩ := by
              simpa using h
            rw [← hs, ← hm]
            exact ⟨rfl, rfl⟩

/-- After any successful `incremental_update` with `force_regenerate` false,
the resulting store has the returned metadata as current and the hash of the
processed compose file recorded. -/
theorem incremental_update_ok_post (hash : String → String) (fill : CasaOSMeta → CasaOSMeta)
    (now : Nat) (f : ComposeFile) (params : Option Params) (llm : Bool) (s : Store)
    (m : CasaOSMeta) (d : Option ComposeDiff) (s1 : Store) (c : Nat)
    (h : incremental_update hash fill now f params false llm s = .ok (m, d, s1, c)) :
    s1.current = some m ∧ s1.compose_hash = some (compute_compose_hash hash f) := by
  unfold incremental_update at h
  cases hchanged : has_compose_changed hash s f with
  | true =>
    rw [hchanged] at h
    exact incremental_update_miss_post hash fill now f params false llm s m d s1 c h
  | false =>
    rw [hchanged] at h
    cases hcur : load_current_meta s with
    | none =>
      rw [hcur] at h
      exact incremental_update_miss_post hash fill now f params false llm s m d s1 c h
    | some cached =>
      rw [hcur] at h
      have h2 : (Except.ok (cached, none, s, 0) :
          Except String (CasaOSMeta × Option ComposeDiff × Store × Nat))
          = .ok (m, d, s1, c) := h
      obtain ⟨hm, hd, hs, hc⟩ := by
        simpa using h2
      constructor
      · rw [← hs, ← hm]
        exact hcur
      · rw [← hs]
        unfold has_compose_changed at hchanged
        cases hph : s.compose_hash with
        | none =>
          rw [hph] at hchanged
          exact Bool.noConfusion hchanged
        | some old_hash =>
          rw [hph] at hchanged
          dsimp only at hchanged
          have hoe : old_hash = compute_compose_hash hash f := by
            by_contra hne
            rw [decide_eq_true hne] at hchanged
            exact Bool.noConfusion hchanged
          rw [hoe]

/-- Claim C4: idempotence — if a run of `incremental_update` with
`force_regenerate` false on an unchanged-file succeeds with metadata `m1`
and store `s1`, then running it again on `s1` with the same compose file
returns exactly `(m1, none, s1, 0)`: the identical metadata, no diff, an
unchanged store, and zero external fill calls — the cached current snapshot
is returned after the fingerprint check alone. -/
theorem incremental_update_idempotent (hash : String → String)
    (fill : CasaOSMeta → CasaOSMeta) (now1 now2 : Nat) (f : ComposeFile)
    (params : Option Params) (llm : Bool) (s0 : Store) (m1 : CasaOSMeta)
    (d1 : Option ComposeDiff) (s1 : Store) (c1 : Nat)
    (h : incremental_update hash fill now1 f params false llm s0 = .ok (m1, d1, s1, c1)) :
    incremental_update hash fill now2 f params false llm s1 = .ok (m1, none, s1, 0) := by
  obtain ⟨hc, hh⟩ := incremental_update_ok_post hash fill now1 f params llm s0 m1 d1 s1 c1 h
  unfold incremental_update
  have hchanged : has_compose_changed hash s1 f = false := by
    unfold has_compose_changed
    rw [hh]
    simp
  rw [hchanged]
  rw [show load_current_meta s1 = some m1 from hc]
  rfl

/-- The compose data for the C4 witness. -/
def composeC4 : Compose := { services := [("web", { ports := [.str "80"] })] }

/-- The compose file for the C4 witness. -/
def fileC4 : ComposeFile := { bytes := "services:web:80", data := some composeC4 }

/-- The metadata the first C4 run produces. -/
def metaC4 : CasaOSMeta := (build_casaos_meta composeC4).getD dummyMeta

/-- The store after a first concrete run of `incremental_update` on an empty
work dir with `fileC4`. -/
def storeC4 : Store := _save_and_backup hashW 1 {} metaC4 fileC4 none

/-- Witness for C4 at a concrete first run. -/
theorem incremental_update_idempotent_witness :
    incremental_update hashW fillW 2 fileC4 none false false storeC4
      = .ok (metaC4, none, storeC4, 0) :=
  incremental_update_idempotent hashW fillW 1 2 fileC4 none false {}
    metaC4 none storeC4 0 (by rfl)

end CasaosGen
